import Mathlib

/-!
Formal model of `migrate.py`, the one-shot customer-migration ETL script.

Shallow-embedding conventions:

* lxml element trees are the mutual inductive `XElem`/`XList`; element tags are
  the local parts of the namespaced lxml tags (every element the script touches
  lives in the single customer-impex namespace, the `dt:dt` type annotation is
  modelled as the attribute key `"dt"`, and the `xsi`-qualified schemaLocation
  attribute as the key `schemaLocationKey`).
* pandas cell values are `Cell`: a string, a boolean, the float NaN (pandas'
  representation of an absent CSV field) or Python `None`.
* Python's in-place tree mutation is modelled by rebuilding the tree with the
  mutated subtree in the same position (`XElem.updFirst`); `lxml`'s
  `Element.remove`, which works on object identity and raises `ValueError`
  when its argument is not a direct child, is modelled with value equality,
  which coincides with identity in every non-raising case.
* `str.strip` / `str.lower` / the regex word-character class are modelled over
  ASCII (the script's data is ASCII).
* Unhandled Python exceptions abort the run before any artifact is written;
  they are modelled by the `Except PyErr` monad.
-/

/-- A pandas cell value as the script sees it. -/
inductive Cell where
  | str (s : String)
  | bool (b : Bool)
  | nan
  | none
  deriving DecidableEq

/-- Python `str(value)` for the cell values the script handles. -/
def Cell.toStr : Cell → String
  | .str s => s
  | .bool true => "True"
  | .bool false => "False"
  | .nan => "nan"
  | .none => "None"

/-- Python `value is None`. -/
def Cell.isNone : Cell → Bool
  | .none => true
  | _ => false

/-- Python `pd.isna(value)`: true for the float NaN and for `None`. -/
def Cell.isna : Cell → Bool
  | .nan => true
  | .none => true
  | _ => false

/-- Python `value == ""` (NaN, `None` and booleans never equal a string). -/
def Cell.isEmptyStr : Cell → Bool
  | .str s => s == ""
  | _ => false

/-- Drop leading whitespace characters. -/
def stripLeadWs : List Char → List Char
  | [] => []
  | c :: cs => if c.isWhitespace then stripLeadWs cs else c :: cs

/-- Python `str.strip()` (ASCII whitespace). -/
def pyStrip (s : String) : String :=
  ⟨(stripLeadWs ((stripLeadWs s.data).reverse)).reverse⟩

/-- ASCII lower-casing of one character. -/
def pyLowerChar (c : Char) : Char :=
  if 'A' ≤ c ∧ c ≤ 'Z' then Char.ofNat (c.toNat + 32) else c

/-- Python `str.lower()` (ASCII). -/
def pyLower (s : String) : String := ⟨s.data.map pyLowerChar⟩

/-- A regex word character (`\w`), ASCII: letters, digits, underscore. -/
def isWordChar (c : Char) : Bool := c.isAlpha || c.isDigit || c == '_'

/-- Line 148: `re.match(r"-\b[1-9]D\b", str(delivery_day))`.  `re.match` anchors
at the start of the string only.  The first `\b` sits between `-` and a digit
and always holds when the digit is there; the final `\b` holds at the end of
the string or before a non-word character, so a conforming three-character
prefix followed by a non-word character also matches. -/
def deliveryDayMatch (s : String) : Bool :=
  match s.data with
  | '-' :: d :: 'D' :: rest =>
    ('1' ≤ d && d ≤ '9') &&
      (match rest with
       | [] => true
       | c :: _ => !isWordChar c)
  | _ => false

/-- The unhandled Python exceptions the script can raise; each aborts the run
before any output artifact is written. -/
inductive PyErr where
  /-- Line 259: `if error_flag:` with `error_flag` never assigned. -/
  | nameErrorErrorFlag
  /-- Line 260: the f-string reads `error_reason` while it was never assigned. -/
  | nameErrorErrorReason
  /-- Raised by `Element.remove` of a node that is not a direct child. -/
  | valueErrorRemove
  /-- Line 276: `new_root.set(..., None)` when the source root has no
  schemaLocation attribute. -/
  | typeErrorSchemaLocation
  deriving DecidableEq

instance {ε α : Type} [DecidableEq ε] [DecidableEq α] : DecidableEq (Except ε α) :=
  fun a b =>
    match a, b with
    | .ok x, .ok y => if h : x = y then .isTrue (by rw [h]) else .isFalse (by simp [h])
    | .ok _, .error _ => .isFalse (by simp)
    | .error _, .ok _ => .isFalse (by simp)
    | .error x, .error y => if h : x = y then .isTrue (by rw [h]) else .isFalse (by simp [h])

mutual
/-- An lxml element: tag, attributes (in document order), text, children. -/
inductive XElem where
  | mk (tag : String) (attrs : List (String × String)) (text : Option String)
       (children : XList)
/-- A sibling list of elements. -/
inductive XList where
  | nil
  | cons (hd : XElem) (tl : XList)
end

mutual
def decEqXElem : (a b : XElem) → Decidable (a = b)
  | .mk t1 a1 x1 c1, .mk t2 a2 x2 c2 =>
    match decEq t1 t2 with
    | .isFalse h => .isFalse (by simp [h])
    | .isTrue h1 =>
      match decEq a1 a2 with
      | .isFalse h => .isFalse (by simp [h])
      | .isTrue h2 =>
        match decEq x1 x2 with
        | .isFalse h => .isFalse (by simp [h])
        | .isTrue h3 =>
          match decEqXList c1 c2 with
          | .isFalse h => .isFalse (by simp [h])
          | .isTrue h4 => .isTrue (by rw [h1, h2, h3, h4])

def decEqXList : (a b : XList) → Decidable (a = b)
  | .nil, .nil => .isTrue rfl
  | .nil, .cons _ _ => .isFalse (by simp)
  | .cons _ _, .nil => .isFalse (by simp)
  | .cons a as, .cons b bs =>
    match decEqXElem a b with
    | .isFalse h => .isFalse (by simp [h])
    | .isTrue h1 =>
      match decEqXList as bs with
      | .isFalse h => .isFalse (by simp [h])
      | .isTrue h2 => .isTrue (by rw [h1, h2])
end

instance : DecidableEq XElem := decEqXElem

instance : DecidableEq XList := decEqXList

def XElem.tag : XElem → String
  | .mk t _ _ _ => t

def XElem.attrs : XElem → List (String × String)
  | .mk _ a _ _ => a

def XElem.text : XElem → Option String
  | .mk _ _ x _ => x

def XElem.children : XElem → XList
  | .mk _ _ _ ch => ch

def XElem.setChildren : XElem → XList → XElem
  | .mk t a x _, ch => .mk t a x ch

/-- Assignment `element.text = v`. -/
def XElem.setText : XElem → Option String → XElem
  | .mk t a _ ch, x => .mk t a x ch

/-- Attribute lookup in an attribute list. -/
def lookupAttr (k : String) : List (String × String) → Option String
  | [] => Option.none
  | (k', v) :: r => if k' == k then some v else lookupAttr k r

/-- Overwrite-or-append in an attribute list (lxml `set` keeps the position of
an existing key and appends a new one). -/
def setAttrList (k v : String) : List (String × String) → List (String × String)
  | [] => [(k, v)]
  | (k', v') :: r => if k' == k then (k, v) :: r else (k', v') :: setAttrList k v r

/-- Lookup `element.get(key)`. -/
def XElem.getAttr (e : XElem) (k : String) : Option String := lookupAttr k e.attrs

/-- Assignment `element.set(key, v)` / `element.attrib[key] = v`. -/
def XElem.setAttr : XElem → String → String → XElem
  | .mk t a x ch, k, v => .mk t (setAttrList k v a) x ch

def XList.append : XList → XList → XList
  | .nil, l => l
  | .cons c cs, l => .cons c (XList.append cs l)

def XList.toList : XList → List XElem
  | .nil => []
  | .cons c cs => c :: XList.toList cs

def XList.ofList : List XElem → XList
  | [] => .nil
  | c :: cs => .cons c (XList.ofList cs)

/-- Operation `etree.SubElement(e, ...)`: appending a child at the end. -/
def XElem.appendChild (e c : XElem) : XElem :=
  e.setChildren (e.children.append (.cons c .nil))

mutual
/-- All nodes of the subtree rooted at `e` (itself included) that satisfy `p`,
in document (preorder) order. -/
def findAllE (p : XElem → Bool) : XElem → List XElem
  | .mk t a x ch =>
    (if p (.mk t a x ch) then [XElem.mk t a x ch] else []) ++ findAllL p ch

/-- All matching nodes of the subtrees of a sibling list, in document order. -/
def findAllL (p : XElem → Bool) : XList → List XElem
  | .nil => []
  | .cons c cs => findAllE p c ++ findAllL p cs
end

/-- Search `element.findall('.//…')`: matching strict descendants in document order. -/
def XElem.findall (e : XElem) (p : XElem → Bool) : List XElem :=
  findAllL p e.children

/-- Search `element.find('.//…')`: the first matching strict descendant. -/
def XElem.find (e : XElem) (p : XElem → Bool) : Option XElem :=
  (e.findall p).head?

mutual
/-- Replace the first node (in document order) of the subtree rooted at `e`
(itself included) that satisfies `p` by `f` of it; `none` when there is no
match. -/
def updFirstE (p : XElem → Bool) (f : XElem → XElem) : XElem → Option XElem
  | .mk t a x ch =>
    if p (.mk t a x ch) then some (f (.mk t a x ch))
    else
      match updFirstL p f ch with
      | some ch' => some (.mk t a x ch')
      | Option.none => Option.none

def updFirstL (p : XElem → Bool) (f : XElem → XElem) : XList → Option XList
  | .nil => Option.none
  | .cons c cs =>
    match updFirstE p f c with
    | some c' => some (.cons c' cs)
    | Option.none =>
      match updFirstL p f cs with
      | some cs' => some (.cons c cs')
      | Option.none => Option.none
end

/-- In-place mutation of the first matching strict descendant: the tree with
`f` applied to the node `element.find('.//…')` returns. -/
def XElem.updFirst (e : XElem) (p : XElem → Bool) (f : XElem → XElem) : Option XElem :=
  (updFirstL p f e.children).map e.setChildren

mutual
/-- Monadic `XElem.updFirst`, for mutations that can raise. -/
def updFirstME (p : XElem → Bool) (f : XElem → Except PyErr XElem) :
    XElem → Except PyErr (Option XElem)
  | .mk t a x ch =>
    if p (.mk t a x ch) then
      match f (.mk t a x ch) with
      | .ok c' => .ok (some c')
      | .error e => .error e
    else
      match updFirstML p f ch with
      | .ok (some ch') => .ok (some (.mk t a x ch'))
      | .ok Option.none => .ok Option.none
      | .error e => .error e

def updFirstML (p : XElem → Bool) (f : XElem → Except PyErr XElem) :
    XList → Except PyErr (Option XList)
  | .nil => .ok Option.none
  | .cons c cs =>
    match updFirstME p f c with
    | .ok (some c') => .ok (some (.cons c' cs))
    | .ok Option.none =>
      match updFirstML p f cs with
      | .ok (some cs') => .ok (some (.cons c cs'))
      | .ok Option.none => .ok Option.none
      | .error e => .error e
    | .error e => .error e
end

/-- Monadic in-place mutation of the first matching strict descendant. -/
def XElem.updFirstM (e : XElem) (p : XElem → Bool) (f : XElem → Except PyErr XElem) :
    Except PyErr (Option XElem) :=
  match updFirstML p f e.children with
  | .ok (some ch') => .ok (some (e.setChildren ch'))
  | .ok Option.none => .ok Option.none
  | .error err => .error err

/-- Remove the first child equal to `x` from a sibling list. -/
def removeFirstEq (x : XElem) : XList → Option XList
  | .nil => Option.none
  | .cons c cs =>
    if c = x then some cs
    else (removeFirstEq x cs).map (.cons c)

/-- Operation `parent.remove(x)`: removing a node that is not a direct child raises
`ValueError`. -/
def XElem.removeChild (par x : XElem) : Except PyErr XElem :=
  match removeFirstEq x par.children with
  | some ch' => .ok (par.setChildren ch')
  | Option.none => .error .valueErrorRemove

/-- One row of the mapping CSV (line 79: `pd.read_csv`), with the columns the
script reads. -/
structure Row where
  current_customer_id : Cell
  new_customer_id : Cell
  new_store_id : Cell
  new_store_name : Cell
  new_source_id : Cell
  mandatory_reference : Cell
  delivery_day : Cell
  deriving DecidableEq

def missingValuesMsg : String := "Missing values!"

/-- Line 150 verbatim (the message opens with an ASCII apostrophe and closes
with U+2019, as in the source). -/
def invalidDeliveryMsg : String := "Invalid delivery day format! - Eg: \x27-1D’"

/-- Lines 126–150: the row-level validation of the re-fetched CSV row.
`prevReason` is the value the module-level `error_reason` variable still holds
from earlier iterations (it is only ever assigned on a failure).  Returns the
`error_flag`, the `error_reason` variable, and the possibly-defaulted
`delivery_day` value.  Note the checks test `value is None`, and a later
delivery-day failure overwrites an earlier missing-values reason. -/
def rowChecks (prevReason : Option String) (r : Row) : Bool × Option String × Cell :=
  let missing := r.new_customer_id.isNone || r.new_store_id.isNone ||
      r.new_store_name.isNone || r.new_source_id.isNone
  let reason1 : Option String := if missing then some missingValuesMsg else prevReason
  if r.delivery_day.isEmptyStr || r.delivery_day.isNone || r.delivery_day.isna then
    (missing, reason1, Cell.str "-3D")
  else if !deliveryDayMatch r.delivery_day.toStr then
    (true, some invalidDeliveryMsg, r.delivery_day)
  else
    (missing, reason1, r.delivery_day)

/-- The `elif` chain of lines 162–183 applied to one `custom-attribute`
element's name and text: the new text, plus the contributions to the
`mek_customer_order_number_mandatory_exists` and `mek_deliveryday_exists`
flags.  The rewrite of an existing order-number-mandatory attribute stores
`str(mandatory_ref)` without lower-casing and fires for any non-`None` cell,
NaN included. -/
def rewriteAttrText (nStoreId nStoreName nSourceId mref dday : Cell)
    (nm : Option String) (x : Option String) : Option String × Bool × Bool :=
  if nm == some "MEK_Company" && x == some "Mekonomen" then (some "Meca", false, false)
  else if nm == some "MEK_Store_Id" then (some nStoreId.toStr, false, false)
  else if nm == some "MEK_WarehouseID" then (some nStoreId.toStr, false, false)
  else if nm == some "MEK_Store_Name" then (some nStoreName.toStr, false, false)
  else if nm == some "MEK_DataAreaID" then (some nSourceId.toStr, false, false)
  else if nm == some "MEK_SourceID" then (some nSourceId.toStr, false, false)
  else if nm == some "MEK_SystemID" then (some "6", false, false)
  else if nm == some "MEK_CustomerOrderNumberMandatory" && !mref.isNone then
    (some mref.toStr, true, false)
  else if nm == some "MEK_DefaultDeliveryday" && !dday.isNone then
    (some dday.toStr, false, true)
  else (x, false, false)

mutual
/-- Lines 161–183 on one subtree: rewrite every `custom-attribute` node (the
lxml `.//` search also descends into nested user accounts) and accumulate the
two `*_exists` flags. -/
def attrPassE (nStoreId nStoreName nSourceId mref dday : Cell) :
    XElem → XElem × Bool × Bool
  | .mk t a x ch =>
    let (x', m1, d1) :=
      if t == "custom-attribute" then
        rewriteAttrText nStoreId nStoreName nSourceId mref dday (lookupAttr "name" a) x
      else (x, false, false)
    let (ch', m2, d2) := attrPassL nStoreId nStoreName nSourceId mref dday ch
    (.mk t a x' ch', m1 || m2, d1 || d2)

def attrPassL (nStoreId nStoreName nSourceId mref dday : Cell) :
    XList → XList × Bool × Bool
  | .nil => (.nil, false, false)
  | .cons c cs =>
    let (c', m1, d1) := attrPassE nStoreId nStoreName nSourceId mref dday c
    let (cs', m2, d2) := attrPassL nStoreId nStoreName nSourceId mref dday cs
    (.cons c' cs', m1 || m2, d1 || d2)
end

/-- The attribute rewrite pass over the customer's strict descendants
(`customer.findall('.//i:custom-attribute', ns)`). -/
def attrPassTop (nStoreId nStoreName nSourceId mref dday : Cell) :
    XElem → XElem × Bool × Bool
  | .mk t a x ch =>
    let (ch', m, d) := attrPassL nStoreId nStoreName nSourceId mref dday ch
    (.mk t a x ch', m, d)

def isCustomAttrsTag (e : XElem) : Bool := e.tag == "custom-attributes"

def isDdayAttr (e : XElem) : Bool :=
  e.tag == "custom-attribute" && e.getAttr "name" == some "MEK_DefaultDeliveryday"

def isMandAttr (e : XElem) : Bool :=
  e.tag == "custom-attribute" && e.getAttr "name" == some "MEK_CustomerOrderNumberMandatory"

/-- Lines 191–200 within the chosen `custom-attributes` element: update an
existing MEK_DefaultDeliveryday attribute or append a fresh one (text
`str(delivery_day)`, type annotation `string`). -/
def putDdayAttr (dday : Cell) (ca : XElem) : XElem :=
  match updFirstL isDdayAttr
      (fun m => (m.setText (some dday.toStr)).setAttr "dt" "string")
      ca.children with
  | some ch' => ca.setChildren ch'
  | Option.none =>
    ca.appendChild
      (.mk "custom-attribute" [("name", "MEK_DefaultDeliveryday"), ("dt", "string")]
        (some dday.toStr) .nil)

/-- Lines 186–200: if the rewrite pass met no MEK_DefaultDeliveryday attribute
and `delivery_day is not None`, locate the customer's first
`custom-attributes` element — lxml's `.//` search takes the first one in
document order, wherever it sits — creating an empty one as a new direct child
when there is none, and put the delivery-day attribute into it. -/
def insertDeliveryday (dday : Cell) (ddayExists : Bool) (c : XElem) : XElem :=
  if !ddayExists && !dday.isNone then
    match c.updFirst isCustomAttrsTag (putDdayAttr dday) with
    | some c' => c'
    | Option.none => c.appendChild (putDdayAttr dday (.mk "custom-attributes" [] Option.none .nil))
  else c

/-- Lines 207–216 within the chosen `custom-attributes` element: update an
existing MEK_CustomerOrderNumberMandatory attribute or append a fresh one
(text `str(mandatory_ref).lower()`, type annotation `boolean`). -/
def putMandAttr (mref : Cell) (ca : XElem) : XElem :=
  match updFirstL isMandAttr
      (fun m => (m.setText (some (pyLower mref.toStr))).setAttr "dt" "boolean")
      ca.children with
  | some ch' => ca.setChildren ch'
  | Option.none =>
    ca.appendChild
      (.mk "custom-attribute" [("name", "MEK_CustomerOrderNumberMandatory"), ("dt", "boolean")]
        (some (pyLower mref.toStr)) .nil)

/-- Lines 202–216: if the rewrite pass met no MEK_CustomerOrderNumberMandatory
attribute and `mandatory_ref is not None and pd.notna(mandatory_ref)`, insert
the lower-cased flag the same way. -/
def insertMandatory (mref : Cell) (mandExists : Bool) (c : XElem) : XElem :=
  if !mandExists && !mref.isNone && !mref.isna then
    match c.updFirst isCustomAttrsTag (putMandAttr mref) with
    | some c' => c'
    | Option.none => c.appendChild (putMandAttr mref (.mk "custom-attributes" [] Option.none .nil))
  else c

/-- Lines 221–222: rewrite the account's back-reference attribute when it
equals the (stripped) current id. -/
def setBpno (cid nid : String) (u : XElem) : XElem :=
  if u.getAttr "business-partner-no" == some cid then u.setAttr "business-partner-no" nid
  else u

def subTextOpt (cid nid : String) (x : Option String) : Option String :=
  if x == some cid then some nid else x

mutual
/-- Lines 223–225: `for element in user.iter(): if element.text == current_id:
element.text = str(new_id)` — the blanket text substitution over the account
subtree, the account element itself included. -/
def subTextE (cid nid : String) : XElem → XElem
  | .mk t a x ch => .mk t a (subTextOpt cid nid x) (subTextL cid nid ch)

def subTextL (cid nid : String) : XList → XList
  | .nil => .nil
  | .cons c cs => .cons (subTextE cid nid c) (subTextL cid nid cs)
end

def isUserGroupsTag (e : XElem) : Bool := e.tag == "user-groups"

def isUserGroupTag (e : XElem) : Bool := e.tag == "user-group"

def isCGUserGroup (e : XElem) : Bool :=
  e.tag == "user-group" && e.getAttr "id" == some "CG_Mekonomen"

/-- Line 230: the set of ids of the `user-group` descendants contains
`"CG_Mekonomen"`. -/
def hasCGId (ug : XElem) : Bool :=
  (ug.findall isUserGroupTag).any (fun g => g.getAttr "id" == some "CG_Mekonomen")

def newCGUserGroup : XElem := .mk "user-group" [("id", "CG_Mekonomen")] Option.none .nil

/-- Lines 227–234: find the account's first `user-groups` element and append a
`CG_Mekonomen` group to it unless one of its `user-group` descendants already
carries that id; no-op when the account has no `user-groups` element. -/
def addCGStep (u : XElem) : XElem :=
  match u.updFirst isUserGroupsTag
      (fun ug => if hasCGId ug then ug else ug.appendChild newCGUserGroup) with
  | some u' => u'
  | Option.none => u

def isLODAttr (e : XElem) : Bool :=
  e.tag == "custom-attribute" && e.getAttr "name" == some "LastOrderDate"

/-- Remove each element of the snapshot list in turn from the parent's direct
children (`for x in parent.findall(...): parent.remove(x)`). -/
def removeEach (xs : List XElem) (par : XElem) : Except PyErr XElem :=
  match xs with
  | [] => .ok par
  | x :: r =>
    match removeFirstEq x par.children with
    | some ch' => removeEach r (par.setChildren ch')
    | Option.none => .error .valueErrorRemove

/-- Lines 237–240 within the account's first `custom-attributes` element:
remove every `LastOrderDate` custom-attribute found below it. -/
def removeLODFrom (ca : XElem) : Except PyErr XElem :=
  removeEach (ca.findall isLODAttr) ca

/-- Lines 236–240: locate the account's first `custom-attributes` element (if
any) and remove the `LastOrderDate` entries from it. -/
def removeLODStep (u : XElem) : Except PyErr XElem :=
  match u.updFirstM isCustomAttrsTag removeLODFrom with
  | .ok (some u') => .ok u'
  | .ok Option.none => .ok u
  | .error e => .error e

def isLLITag (e : XElem) : Bool := e.tag == "last-logged-in"

def isCredentialsTag (e : XElem) : Bool := e.tag == "credentials"

/-- Lines 245–247 within the account's first `credentials` element: remove the
first `last-logged-in` descendant, if there is one (`find`, not `findall`). -/
def removeLLIFrom (cr : XElem) : Except PyErr XElem :=
  match cr.find isLLITag with
  | some x => cr.removeChild x
  | Option.none => .ok cr

/-- Lines 242–247: locate the account's first `credentials` element (if any)
and remove its first `last-logged-in` field. -/
def removeLLIStep (u : XElem) : Except PyErr XElem :=
  match u.updFirstM isCredentialsTag removeLLIFrom with
  | .ok (some u') => .ok u'
  | .ok Option.none => .ok u
  | .error e => .error e

def isProfileTag (e : XElem) : Bool := e.tag == "profile"

def isCreationDateTag (e : XElem) : Bool := e.tag == "creation-date"

/-- Lines 249–254: set the first `creation-date` below the account's first
`profile` element to the processing date; never create either element. -/
def setCreationDate (today : String) (u : XElem) : XElem :=
  match u.updFirst isProfileTag (fun pr =>
      match updFirstL isCreationDateTag (fun cd => cd.setText (some today)) pr.children with
      | some ch' => pr.setChildren ch'
      | Option.none => pr) with
  | some u' => u'
  | Option.none => u

/-- Lines 219–254: the per-account update, in source order. -/
def updateUser (cid nid today : String) (u : XElem) : Except PyErr XElem := do
  let u1 := subTextE cid nid (setBpno cid nid u)
  let u2 := addCGStep u1
  let u3 ← removeLODStep u2
  let u4 ← removeLLIStep u3
  pure (setCreationDate today u4)

/-- Apply the per-account update to every `user` strict descendant in document
order (`customer.findall('.//i:user', ns)`).  lxml would additionally revisit
a user nested inside another user; the customer schema nests no users, and the
model treats each matched user as one unit. -/
def updUsersL (cid nid today : String) : XList → Except PyErr XList
  | .nil => .ok .nil
  | .cons (.mk t a x ch) cs =>
    if t == "user" then
      match updateUser cid nid today (.mk t a x ch) with
      | .ok u' =>
        match updUsersL cid nid today cs with
        | .ok cs' => .ok (.cons u' cs')
        | .error e => .error e
      | .error e => .error e
    else
      match updUsersL cid nid today ch with
      | .ok ch' =>
        match updUsersL cid nid today cs with
        | .ok cs' => .ok (.cons (.mk t a x ch') cs')
        | .error e => .error e
      | .error e => .error e

/-- Lines 152–257: the transformation the script applies, in place, to the
matched customer element.  `cid` is the re-read, stripped id of line 120; the
cells are those of the re-fetched CSV row (lines 128–133), `dday` the
delivery-day value after the defaulting of lines 143–144. -/
def transformCustomer (newId nStoreId nStoreName nSourceId mref dday : Cell)
    (cid today : String) (c : XElem) : Except PyErr XElem := do
  let c1 := c.setAttr "id" newId.toStr
  let pass := attrPassTop nStoreId nStoreName nSourceId mref dday c1
  let mandExists := pass.2.1
  let ddayExists := pass.2.2
  let c3 := insertDeliveryday dday ddayExists pass.1
  let c4 := insertMandatory mref mandExists c3
  match c4 with
  | .mk t a x ch => do
    let ch' ← updUsersL cid newId.toStr today ch
    pure (XElem.mk t a x ch')

/-- One row of the migration log (columns of line 103). -/
structure LogRow where
  current_id : String
  new_id : String
  status : String
  reason : String
  deriving DecidableEq

/-- The mutable state the loop of lines 108–270 threads between iterations:
the (mutated in place) source tree, the accumulating output children and log,
the module-level `error_flag` / `error_reason` variables (unassigned until a
found-and-matched row runs the validation), and the found counter. -/
structure MState where
  root : XElem
  outChildren : List XElem
  log : List LogRow
  errorFlag : Option Bool
  errorReason : Option String
  found : Nat
  deriving DecidableEq

/-- Line 115: the XPath `.//i:customer[@id="current_id"]` predicate. -/
def isCustomerWithId (cid : String) (e : XElem) : Bool :=
  e.tag == "customer" && e.getAttr "id" == some cid

/-- Lines 259–262: update the log row from `error_flag`; reading the variable
while it was never assigned raises NameError. -/
def applyStatus (ef : Option Bool) (er : Option String) (lr : LogRow) :
    Except PyErr LogRow :=
  match ef with
  | Option.none => .error .nameErrorErrorFlag
  | some true =>
    match er with
    | Option.none => .error .nameErrorErrorReason
    | some r =>
      .ok { lr with status := "Not OK"
                    reason := "Invalid value! Please check CSV input file (" ++ r ++ ")" }
  | some false => .ok { lr with status := "OK" }

/-- Lines 108–270: one iteration of the main loop over the CSV rows.  The full
CSV is needed because a found row re-reads the record's id, strips it, checks
it against the set of all current ids (line 122) and re-fetches the first row
with that stripped id (line 123). -/
def processRow (csv : List Row) (today : String) (st : MState) (r : Row) :
    Except PyErr MState :=
  let currentId := r.current_customer_id.toStr
  let newId0 := pyStrip r.new_customer_id.toStr
  let logRow0 : LogRow := ⟨currentId, newId0, "", ""⟩
  match st.root.find (isCustomerWithId currentId) with
  | Option.none =>
    .ok { st with log := st.log ++
          [{ logRow0 with status := "Not OK", reason := "Not found in source XML" }] }
  | some customer =>
    let cid := pyStrip ((customer.getAttr "id").getD "None")
    match csv.find? (fun r2 => r2.current_customer_id.toStr == cid) with
    | Option.none =>
      -- the `if current_id in customer_ids_from_csv` guard failed: the body is
      -- skipped and the stale error_flag decides the status of the initial row
      match applyStatus st.errorFlag st.errorReason logRow0 with
      | .ok lr => .ok { st with found := st.found + 1, log := st.log ++ [lr] }
      | .error e => .error e
    | some row2 =>
      let checks := rowChecks st.errorReason row2
      let ef := checks.1
      let er := checks.2.1
      let dday := checks.2.2
      match transformCustomer row2.new_customer_id row2.new_store_id row2.new_store_name
          row2.new_source_id row2.mandatory_reference dday cid today customer with
      | .error e => .error e
      | .ok tc =>
        let root' := (st.root.updFirst (isCustomerWithId currentId) (fun _ => tc)).getD st.root
        let logRow1 : LogRow := ⟨cid, row2.new_customer_id.toStr, "", "Found in source XML file"⟩
        match applyStatus (some ef) er logRow1 with
        | .ok lr =>
          .ok { root := root', outChildren := st.outChildren ++ [tc],
                log := st.log ++ [lr], errorFlag := some ef, errorReason := er,
                found := st.found + 1 }
        | .error e => .error e

/-- What the run hands to the two serialization calls: the output document,
the migration log, and the found/total counters of line 272.  `finalRoot` is
the in-memory source tree as the loop leaves it. -/
structure RunResult where
  outDoc : XElem
  log : List LogRow
  foundCount : Nat
  csvCount : Nat
  finalRoot : XElem
  deriving DecidableEq

/-- Stands for the `xsi`-namespace-qualified schemaLocation attribute key. -/
def schemaLocationKey : String := "schemaLocation"

/-- Line 279's fixed whitelist of version attributes. -/
def versionAttrNames : List String := ["major", "minor", "family", "branch", "build"]

/-- Lines 279–281: `if root.get(attribute): new_root.set(attribute,
root.get(attribute))` — copy one attribute when its value is truthy (present
and non-empty). -/
def copyStep (root e : XElem) (a : String) : XElem :=
  match root.getAttr a with
  | some s => if s == "" then e else e.setAttr a s
  | Option.none => e

/-- Lines 274–284: build the output root.  The schemaLocation attribute is
copied unconditionally — `new_root.set(..., None)` raises TypeError when the
source root has none — and each version attribute is copied when truthy. -/
def assembleOutput (csvCount : Nat) (st : MState) : Except PyErr RunResult :=
  match st.root.getAttr schemaLocationKey with
  | Option.none => .error .typeErrorSchemaLocation
  | some sl =>
    let base := XElem.mk st.root.tag [(schemaLocationKey, sl)] Option.none
        (XList.ofList st.outChildren)
    let outRoot := versionAttrNames.foldl (copyStep st.root) base
    .ok ⟨outRoot, st.log, st.found, csvCount, st.root⟩

/-- Lines 79–284: the whole batch.  Iterate the CSV rows over the initial
state (with `error_flag` / `error_reason` unassigned), then assemble the
output document; `csvCount` is `len(set(...))` of line 82–85.  The two file
writes are outside the model. -/
def runMigration (csv : List Row) (today : String) (root : XElem) :
    Except PyErr RunResult :=
  match csv.foldlM (processRow csv today)
      (⟨root, [], [], Option.none, Option.none, 0⟩ : MState) with
  | .ok stN => assembleOutput ((csv.map (fun r => r.current_customer_id.toStr)).dedup.length) stN
  | .error e => .error e

/-- The delivery-day format exactly as the specification words it: a leading
`-`, one digit 1–9, a literal `D`, and nothing else. -/
def specDeliveryDayExact (s : String) : Bool :=
  match s.data with
  | ['-', d, 'D'] => '1' ≤ d && d ≤ '9'
  | _ => false

instance : Inhabited XElem := ⟨.mk "" [] Option.none .nil⟩

/-! Concrete fixtures used by the witnesses and counterexamples. -/

/-- A source customer `id="1"` with one store-id attribute. -/
def fixCustomer : XElem :=
  .mk "customer" [("id", "1")] Option.none
    (.cons (.mk "custom-attributes" [] Option.none
      (.cons (.mk "custom-attribute" [("name", "MEK_Store_Id")] (some "5") .nil) .nil)) .nil)

/-- A source document root holding `fixCustomer`, with a schemaLocation and a
`major` version attribute. -/
def fixRoot : XElem :=
  .mk "customers" [(schemaLocationKey, "sl"), ("major", "7")] Option.none
    (.cons fixCustomer .nil)

def fixState : MState := ⟨fixRoot, [], [], Option.none, Option.none, 0⟩

/-- A mapping row for customer 1 with the malformed delivery day `"3D"`. -/
def fixRowInvalidDday : Row :=
  ⟨.str "1", .str "2", .str "5", .str "A", .str "S", .nan, .str "3D"⟩

/-- A fully valid mapping row for customer 1. -/
def fixRowValid : Row :=
  ⟨.str "1", .str "2", .str "5", .str "A", .str "S", .nan, .str "-1D"⟩

/-- A mapping row whose `new_store_id` cell is absent (NaN). -/
def fixRowNanStore : Row :=
  ⟨.str "1", .str "2", .nan, .str "A", .str "S", .nan, .str "-1D"⟩

/-- A mapping row whose delivery day `"-1D-"` has a valid prefix and a
trailing non-word character. -/
def fixRowDdayTrail : Row :=
  ⟨.str "1", .str "2", .str "5", .str "A", .str "S", .nan, .str "-1D-"⟩

/-- A mapping row whose delivery-day cell is absent (NaN). -/
def fixRowNanDday : Row :=
  ⟨.str "1", .str "2", .str "5", .str "A", .str "S", .nan, .nan⟩

/-- A mapping row whose current id carries a trailing blank. -/
def fixRowWs : Row :=
  ⟨.str "1 ", .str "2", .str "5", .str "A", .str "S", .nan, .str "-1D"⟩

/-- A mapping row that maps customer 1 onto the same id 1. -/
def fixRowSelf : Row :=
  ⟨.str "1", .str "1", .str "5", .str "A", .str "S", .nan, .str "-1D"⟩

/-- A mapping row for customer 2 with a malformed delivery day. -/
def fixRowBad2 : Row :=
  ⟨.str "2", .str "3", .str "5", .str "A", .str "S", .nan, .str "3D"⟩

/-- A source root without a schemaLocation attribute. -/
def fixRootNoSchema : XElem := .mk "customers" [] Option.none .nil

/-- A source customer whose id attribute is `"1 "`, trailing blank included. -/
def fixCustomerWs : XElem := .mk "customer" [("id", "1 ")] Option.none .nil

def fixRootWs : XElem :=
  .mk "customers" [(schemaLocationKey, "sl")] Option.none (.cons fixCustomerWs .nil)

def fixCustomer2 : XElem := .mk "customer" [("id", "2")] Option.none .nil

/-- A root holding customer `"2"` and the whitespace-id customer `"1 "`. -/
def fixRootStale : XElem :=
  .mk "customers" [(schemaLocationKey, "sl")] Option.none
    (.cons fixCustomer2 (.cons fixCustomerWs .nil))

/-- An account whose group collection already contains `CG_Mekonomen` twice. -/
def fixUserDupCG : XElem :=
  .mk "user" [] Option.none
    (.cons (.mk "user-groups" [] Option.none
      (.cons (.mk "user-group" [("id", "CG_Mekonomen")] Option.none .nil)
        (.cons (.mk "user-group" [("id", "CG_Mekonomen")] Option.none .nil) .nil))) .nil)

def fixCustomerDupCG : XElem :=
  .mk "customer" [("id", "1")] Option.none (.cons fixUserDupCG .nil)

/-- An account whose group collection contains `CG_Mekonomen` once. -/
def fixUserOneCG : XElem :=
  .mk "user" [] Option.none
    (.cons (.mk "user-groups" [] Option.none
      (.cons (.mk "user-group" [("id", "CG_Mekonomen")] Option.none .nil) .nil)) .nil)

/-- An account whose credentials hold two `last-logged-in` fields. -/
def fixUserDupLLI : XElem :=
  .mk "user" [] Option.none
    (.cons (.mk "credentials" [] Option.none
      (.cons (.mk "last-logged-in" [] (some "2020") .nil)
        (.cons (.mk "last-logged-in" [] (some "2021") .nil) .nil))) .nil)

def fixCustomerDupLLI : XElem :=
  .mk "customer" [("id", "1")] Option.none (.cons fixUserDupLLI .nil)

/-- A `custom-attributes` collection holding two `LastOrderDate` entries and
one other attribute. -/
def fixCADupLOD : XElem :=
  .mk "custom-attributes" [] Option.none
    (.cons (.mk "custom-attribute" [("name", "LastOrderDate")] (some "2019") .nil)
      (.cons (.mk "custom-attribute" [("name", "Other")] (some "x") .nil)
        (.cons (.mk "custom-attribute" [("name", "LastOrderDate")] (some "2020") .nil) .nil)))

/-- A credentials record holding exactly one `last-logged-in` field. -/
def fixCROneLLI : XElem :=
  .mk "credentials" [] Option.none
    (.cons (.mk "login" [] (some "u") .nil)
      (.cons (.mk "last-logged-in" [] (some "2020") .nil) .nil))

/-- A source customer carrying an order-number-mandatory attribute with text
`"false"`. -/
def fixCustomerMand : XElem :=
  .mk "customer" [("id", "1")] Option.none
    (.cons (.mk "custom-attributes" [] Option.none
      (.cons (.mk "custom-attribute" [("name", "MEK_CustomerOrderNumberMandatory")]
        (some "false") .nil) .nil)) .nil)

/-- The transformed clone `processRow` appends for `fixRowInvalidDday` on
`fixCustomer`. -/
def fixTcInvalid : XElem :=
  (transformCustomer (.str "2") (.str "5") (.str "A") (.str "S") .nan (.str "3D")
    "1" "T" fixCustomer).toOption.getD default

/-- The transformed clone for `fixRowValid` on `fixCustomer`. -/
def fixTcValid : XElem :=
  (transformCustomer (.str "2") (.str "5") (.str "A") (.str "S") .nan (.str "-1D")
    "1" "T" fixCustomer).toOption.getD default

/-! General lemmas about the tree model. -/

theorem toList_ofList (L : List XElem) : XList.toList (XList.ofList L) = L := by
  induction L with
  | nil => simp [XList.ofList, XList.toList]
  | cons c cs ih => simp [XList.ofList, XList.toList, ih]

theorem setChildren_setChildren (e : XElem) (a b : XList) :
    (e.setChildren a).setChildren b = e.setChildren b := by
  cases e; simp [XElem.setChildren]

theorem findAllL_append (p : XElem → Bool) :
    ∀ (l1 l2 : XList), findAllL p (l1.append l2) = findAllL p l1 ++ findAllL p l2
  | .nil, l2 => by simp [XList.append, findAllL]
  | .cons c cs, l2 => by simp [XList.append, findAllL, findAllL_append p cs l2]

mutual
theorem findAll_predE (p : XElem → Bool) (m : XElem) :
    ∀ e : XElem, m ∈ findAllE p e → p m = true
  | .mk t a x ch => by
    intro hm
    simp only [findAllE] at hm
    rcases List.mem_append.mp hm with h | h
    · split at h
      · next hp => rcases List.mem_singleton.mp h with rfl; exact hp
      · simp at h
    · exact findAll_pred p m ch h

theorem findAll_pred (p : XElem → Bool) (m : XElem) :
    ∀ l : XList, m ∈ findAllL p l → p m = true
  | .nil => by simp [findAllL]
  | .cons c cs => by
    intro hm
    simp only [findAllL, List.mem_append] at hm
    rcases hm with h | h
    · exact findAll_predE p m c h
    · exact findAll_pred p m cs h
end

theorem find_pred {p : XElem → Bool} {e m : XElem} (h : e.find p = some m) :
    p m = true := by
  have hm : m ∈ findAllL p e.children := by
    have := List.head?_eq_head (l := findAllL p e.children)
    unfold XElem.find XElem.findall at h
    exact List.mem_of_mem_head? h
  exact findAll_pred p m _ hm

theorem lookup_set_same (k v : String) (a : List (String × String)) :
    lookupAttr k (setAttrList k v a) = some v := by
  induction a with
  | nil => simp [setAttrList, lookupAttr]
  | cons p r ih =>
    obtain ⟨k', v'⟩ := p
    by_cases h : k' = k
    · subst h; simp [setAttrList, lookupAttr]
    · simp [setAttrList, lookupAttr, h, ih]

theorem lookup_set_ne (k k' v : String) (a : List (String × String)) (h : k' ≠ k) :
    lookupAttr k (setAttrList k' v a) = lookupAttr k a := by
  induction a with
  | nil => simp [setAttrList, lookupAttr, h]
  | cons p r ih =>
    obtain ⟨k0, v0⟩ := p
    by_cases h0 : k0 = k'
    · subst h0; simp [setAttrList, lookupAttr, h]
    · simp [setAttrList, lookupAttr, h0, ih]

theorem getAttr_setAttr_ne (e : XElem) (k k' v : String) (h : k' ≠ k) :
    (e.setAttr k' v).getAttr k = e.getAttr k := by
  cases e; simp [XElem.setAttr, XElem.getAttr, XElem.attrs, lookup_set_ne _ _ _ _ h]

theorem getAttr_setAttr_same (e : XElem) (k v : String) :
    (e.setAttr k v).getAttr k = some v := by
  cases e; simp [XElem.setAttr, XElem.getAttr, XElem.attrs, lookup_set_same]

/-! Lemmas about the delivery-day validation, and claim C3. -/

/-- Characterization of the translated `re.match(r"-\b[1-9]D\b", s)` check. -/
theorem deliveryDayMatch_iff (s : String) :
    deliveryDayMatch s = true ↔
      ∃ d t, s.data = '-' :: d :: 'D' :: t ∧ ('1' ≤ d ∧ d ≤ '9') ∧
        (t = [] ∨ isWordChar t.headI = false) := by
  unfold deliveryDayMatch
  split
  · next d rest heq =>
    constructor
    · intro h
      refine ⟨d, rest, heq, ?_, ?_⟩
      · have h1 := (Bool.and_eq_true _ _).mp h
        exact ⟨le_of_eq_of_le rfl (by simpa using (Bool.and_eq_true _ _).mp h1.1 |>.1),
               by simpa using ((Bool.and_eq_true _ _).mp h1.1).2⟩
      · have h2 := ((Bool.and_eq_true _ _).mp h).2
        cases rest with
        | nil => exact Or.inl rfl
        | cons c t' => right; simpa [List.headI] using h2
    · rintro ⟨d', t', he, hd, ht⟩
      rw [heq] at he
      obtain ⟨rfl, rfl⟩ : d = d' ∧ rest = t' := by
        have := List.cons.injEq .. ▸ he
        simp at he
        exact ⟨he.1, he.2⟩
      refine (Bool.and_eq_true _ _).mpr ⟨(Bool.and_eq_true _ _).mpr ⟨by simpa using hd.1, by simpa using hd.2⟩, ?_⟩
      cases rest with
      | nil => rfl
      | cons c t'' =>
        rcases ht with h | h
        · simp at h
        · simpa [List.headI] using h
  · next hne =>
    constructor
    · intro h; simp at h
    · rintro ⟨d, t, he, hd, ht⟩
      exact (hne d t he).elim

/-- C3 (counterexample): the claim says the validator accepts exactly the
strings of the form `-dD` (d in 1–9) and rejects every non-conforming string,
but the unanchored `re.match` also accepts `"-1D-"`, which is not of that
form: a row carrying it passes validation (`error_flag` stays false). -/
theorem c3_counterexample :
    (rowChecks Option.none fixRowDdayTrail).1 = false ∧
    fixRowDdayTrail.delivery_day = Cell.str "-1D-" ∧
    specDeliveryDayExact "-1D-" = false := by decide

/-- C3 (amended): for a row with no missing required value, delivery-day
validation accepts the row iff the delivery day is empty/absent/NaN (in which
case it is normalized to `"-3D"`), or its string starts with `-`, a digit 1–9
and `D` followed by nothing or by a non-word character.  In particular `"-1D"`
is accepted, `"-15D"` and `"3D"` are rejected (with the format reason), but a
trailing non-word character is also accepted. -/
theorem c3_theorem (r : Row) (prev : Option String)
    (hm : (r.new_customer_id.isNone || r.new_store_id.isNone ||
        r.new_store_name.isNone || r.new_source_id.isNone) = false) :
    ((rowChecks prev r).1 = false ↔
      ((r.delivery_day.isEmptyStr || r.delivery_day.isNone || r.delivery_day.isna) = true ∨
        ∃ d t, (r.delivery_day.toStr).data = '-' :: d :: 'D' :: t ∧ ('1' ≤ d ∧ d ≤ '9') ∧
          (t = [] ∨ isWordChar t.headI = false))) ∧
    ((r.delivery_day.isEmptyStr || r.delivery_day.isNone || r.delivery_day.isna) = true →
      (rowChecks prev r).2.2 = Cell.str "-3D") ∧
    ((rowChecks prev r).1 = true →
      (rowChecks prev r).2.1 = some invalidDeliveryMsg) := by
  have hiff := deliveryDayMatch_iff (r.delivery_day.toStr)
  by_cases h1 : (r.delivery_day.isEmptyStr || r.delivery_day.isNone || r.delivery_day.isna) = true
  · refine ⟨?_, fun _ => ?_, fun hfl => ?_⟩
    · simp [rowChecks, hm, h1]
    · simp [rowChecks, hm, h1]
    · exact absurd hfl (by simp [rowChecks, hm, h1])
  · have h1' : (r.delivery_day.isEmptyStr || r.delivery_day.isNone || r.delivery_day.isna) = false := by
      simpa using h1
    by_cases h2 : deliveryDayMatch r.delivery_day.toStr = true
    · refine ⟨?_, fun hc => ?_, fun hfl => ?_⟩
      · simp only [rowChecks, hm, h1', Bool.false_eq_true, if_false, h2, Bool.not_true]
        simpa [h1] using hiff.mp h2
      · exact absurd hc h1
      · exact absurd hfl (by simp [rowChecks, hm, h1', h2])
    · have h2' : deliveryDayMatch r.delivery_day.toStr = false := by simpa using h2
      refine ⟨?_, fun hc => ?_, fun _ => ?_⟩
      · simp only [rowChecks, hm, h1', Bool.false_eq_true, if_false, h2', Bool.not_false]
        constructor
        · intro h; simp at h
        · intro hr
          rcases hr with hr | hr
          · exact hr.elim
          · exact absurd (hiff.mpr hr) h2
      · exact absurd hc h1
      · simp [rowChecks, hm, h1', h2']

/-- C3 (witness): the fully valid fixture row `"-1D"` is accepted and a
NaN delivery day is normalized to `"-3D"`. -/
theorem c3_witness :
    (rowChecks Option.none fixRowValid).1 = false ∧
    (rowChecks Option.none fixRowNanDday).2.2 = Cell.str "-3D" := by
  constructor
  · exact (c3_theorem fixRowValid Option.none (by decide)).1.mpr
      (Or.inr ⟨'1', [], by decide, by decide, Or.inl rfl⟩)
  · exact (c3_theorem fixRowNanDday Option.none (by decide)).2.1 (by decide)

/-- C1 (counterexample): on a source holding customer 1 and a matched row with
the malformed delivery day `"3D"`, the audit row is Not OK, yet the output
document still contains one record — contradicting the claim that the output
holds records only for rows whose audit status is OK. -/
theorem c1_counterexample :
    (runMigration [fixRowInvalidDday] "T" fixRoot).map
      (fun res => (res.log.map LogRow.status, res.outDoc.children.toList.length)) =
    .ok (["Not OK"], 1) := by decide

/-- C2 (counterexample): after processing a valid row mapping customer 1 to 2,
the in-memory source tree holds a customer with id 2 and none with id 1 —
the source document tree is not unchanged. -/
theorem c2_counterexample :
    (runMigration [fixRowValid] "T" fixRoot).map
      (fun res => ((res.finalRoot.find (isCustomerWithId "2")).isSome,
        (res.finalRoot.find (isCustomerWithId "1")).isSome)) = .ok (true, false) ∧
    (fixRoot.find (isCustomerWithId "2")).isSome = false ∧
    (fixRoot.find (isCustomerWithId "1")).isSome = true := by decide

/-- C4: the claim says an existing order-number-mandatory attribute is set to
the lower-cased boolean text and left alone when `mandatory_reference` is
absent.  The rewrite branch of line 178 stores `str(mandatory_ref)` without
`.lower()`, producing `"True"`, and an absent (NaN) cell passes the
`is not None` guard, overwriting the attribute with `"nan"`. -/
theorem c4_theorem :
    (transformCustomer (.str "2") (.str "5") (.str "A") (.str "S") (.bool true) (.str "-1D")
        "1" "T" fixCustomerMand).map
      (fun tc => (tc.findall isMandAttr).map XElem.text) = .ok [some "True"] ∧
    (transformCustomer (.str "2") (.str "5") (.str "A") (.str "S") .nan (.str "-1D")
        "1" "T" fixCustomerMand).map
      (fun tc => (tc.findall isMandAttr).map XElem.text) = .ok [some "nan"] ∧
    pyLower (Cell.bool true).toStr = "true" ∧ ("True" : String) ≠ "true" := by decide

/-- C5: the claim says a row with an absent/empty required value is logged
NOT_OK with reason "Missing values!".  pandas represents an absent cell as
NaN, which passes the `value is None` check of line 136, so the row with a NaN
`new_store_id` validates, is logged OK, and the record is transformed with the
store id text `"nan"`. -/
theorem c5_theorem :
    fixRowNanStore.new_store_id = Cell.nan ∧
    (rowChecks Option.none fixRowNanStore).1 = false ∧
    (runMigration [fixRowNanStore] "T" fixRoot).map
      (fun res => (res.log.map (fun l => (l.status, l.reason)),
        (res.outDoc.find (fun e => e.tag == "custom-attribute")).map XElem.text)) =
    .ok ([("OK", "Found in source XML file")], some (some "nan")) := by decide

/-- C6 (counterexample): a readable source whose root lacks the schemaLocation
attribute makes line 276 pass `None` to `new_root.set`, raising TypeError
before either artifact is produced — the batch does not complete. -/
theorem c6_counterexample :
    fixRootNoSchema.getAttr schemaLocationKey = Option.none ∧
    runMigration [] "T" fixRootNoSchema = .error .typeErrorSchemaLocation := by decide

/-- C7 (counterexample): an account whose group collection already holds
`CG_Mekonomen` twice keeps both after a successful transformation — the
membership is not contained exactly once. -/
theorem c7_counterexample :
    (findAllE isCGUserGroup fixCustomerDupCG).length = 2 ∧
    (transformCustomer (.str "2") (.str "5") (.str "A") (.str "S") .nan (.str "-1D")
        "1" "T" fixCustomerDupCG).map
      (fun tc => (findAllE isCGUserGroup tc).length) = .ok 2 := by decide

/-- C8 (counterexample): an account whose credentials hold two
`last-logged-in` fields keeps one of them after a successful transformation
(line 245 uses `find`, removing only the first), contradicting the claim that
none remains regardless of how many entries the source contained. -/
theorem c8_counterexample :
    (findAllE isLLITag fixCustomerDupLLI).length = 2 ∧
    (transformCustomer (.str "2") (.str "5") (.str "A") (.str "S") .nan (.str "-1D")
        "1" "T" fixCustomerDupLLI).map
      (fun tc => (findAllE isLLITag tc).length) = .ok 1 := by decide

/-- C9: a mapping row whose current id `"1 "` differs from its stripped form
while the source holds a customer with that exact id reaches line 259 with
`error_flag` never assigned, so the run raises NameError on the first such
row; and when an earlier row already assigned `error_flag`, such a row reuses
the previous row's verdict (here: the stale Not OK reason) instead of being
logged on its own. -/
theorem c9_theorem :
    fixRowWs.current_customer_id.toStr ≠ pyStrip fixRowWs.current_customer_id.toStr ∧
    (fixRootWs.find (isCustomerWithId fixRowWs.current_customer_id.toStr)).isSome = true ∧
    runMigration [fixRowWs] "T" fixRootWs = .error .nameErrorErrorFlag ∧
    (runMigration [fixRowBad2, fixRowWs] "T" fixRootStale).map
      (fun res => res.log.map (fun l => (l.current_id, l.status, l.reason))) =
    .ok [("2", "Not OK", "Invalid value! Please check CSV input file (" ++ invalidDeliveryMsg ++ ")"),
      ("1 ", "Not OK", "Invalid value! Please check CSV input file (" ++ invalidDeliveryMsg ++ ")")] := by
  decide

/-- C10 (counterexample): two identical mapping rows with `new id = current
id = "1"`: the in-place rewrite leaves the id unchanged, so the second row's
lookup still matches and a second transformed record is appended (both rows
logged OK, none logged "not found"). -/
theorem c10_counterexample :
    (runMigration [fixRowSelf, fixRowSelf] "T" fixRoot).map
      (fun res => (res.outDoc.children.toList.length, res.log.map LogRow.status)) =
    .ok (2, ["OK", "OK"]) := by decide

/-! Lemmas for the per-row processing, and claims C1 and C2. -/

theorem rowChecks_reason_of_flag (prev : Option String) (r : Row)
    (h : (rowChecks prev r).1 = true) : ∃ s, (rowChecks prev r).2.1 = some s := by
  simp only [rowChecks] at h ⊢
  repeat' split at h
  all_goals repeat' split
  all_goals simp_all

theorem setChildren_tag (e : XElem) (ch : XList) : (e.setChildren ch).tag = e.tag := by
  cases e; simp [XElem.setChildren, XElem.tag]

theorem setChildren_attrs (e : XElem) (ch : XList) :
    (e.setChildren ch).attrs = e.attrs := by
  cases e; simp [XElem.setChildren, XElem.attrs]

theorem appendChild_tag (e c : XElem) : (e.appendChild c).tag = e.tag := by
  simp [XElem.appendChild, setChildren_tag]

theorem appendChild_attrs (e c : XElem) : (e.appendChild c).attrs = e.attrs := by
  simp [XElem.appendChild, setChildren_attrs]

theorem updFirst_tag_attrs {e e' : XElem} {p : XElem → Bool} {f : XElem → XElem}
    (h : e.updFirst p f = some e') : e'.tag = e.tag ∧ e'.attrs = e.attrs := by
  unfold XElem.updFirst at h
  cases hu : updFirstL p f e.children with
  | none => rw [hu] at h; simp at h
  | some ch' =>
    rw [hu] at h
    simp at h
    rw [← h]
    exact ⟨setChildren_tag e ch', setChildren_attrs e ch'⟩

theorem attrPassTop_attrs (a b c d f : Cell) (e : XElem) :
    ((attrPassTop a b c d f e).1).attrs = e.attrs ∧
    ((attrPassTop a b c d f e).1).tag = e.tag := by
  cases e; simp [attrPassTop, XElem.attrs, XElem.tag]

theorem insertDeliveryday_attrs (dday : Cell) (b : Bool) (c : XElem) :
    (insertDeliveryday dday b c).attrs = c.attrs ∧
    (insertDeliveryday dday b c).tag = c.tag := by
  unfold insertDeliveryday
  split
  · cases hu : c.updFirst isCustomAttrsTag (putDdayAttr dday) with
    | none => simp [hu, appendChild_attrs, appendChild_tag]
    | some c' => simp [hu, (updFirst_tag_attrs hu).2, (updFirst_tag_attrs hu).1]
  · exact ⟨rfl, rfl⟩

theorem insertMandatory_attrs (mref : Cell) (b : Bool) (c : XElem) :
    (insertMandatory mref b c).attrs = c.attrs ∧
    (insertMandatory mref b c).tag = c.tag := by
  unfold insertMandatory
  split
  · cases hu : c.updFirst isCustomAttrsTag (putMandAttr mref) with
    | none => simp [hu, appendChild_attrs, appendChild_tag]
    | some c' => simp [hu, (updFirst_tag_attrs hu).2, (updFirst_tag_attrs hu).1]
  · exact ⟨rfl, rfl⟩

theorem transform_id {newId nStoreId nStoreName nSourceId mref dday : Cell}
    {cid today : String} {c tc : XElem}
    (h : transformCustomer newId nStoreId nStoreName nSourceId mref dday cid today c = .ok tc) :
    tc.getAttr "id" = some newId.toStr ∧ tc.tag = c.tag := by
  simp only [transformCustomer] at h
  cases hc4 : insertMandatory mref
      (attrPassTop nStoreId nStoreName nSourceId mref dday (c.setAttr "id" newId.toStr)).2.1
      (insertDeliveryday dday
        (attrPassTop nStoreId nStoreName nSourceId mref dday (c.setAttr "id" newId.toStr)).2.2
        (attrPassTop nStoreId nStoreName nSourceId mref dday (c.setAttr "id" newId.toStr)).1) with
  | mk t a x ch =>
    rw [hc4] at h
    simp only [bind, Except.bind] at h
    cases hu : updUsersL cid newId.toStr today ch with
    | error e => rw [hu] at h; simp at h
    | ok ch' =>
      rw [hu] at h
      simp only [pure, Except.pure, Except.ok.injEq] at h
      have hattrs : a = (c.setAttr "id" newId.toStr).attrs := by
        have e1 := congrArg XElem.attrs hc4
        rw [(insertMandatory_attrs _ _ _).1, (insertDeliveryday_attrs _ _ _).1,
          (attrPassTop_attrs _ _ _ _ _ _).1] at e1
        simpa [XElem.attrs] using e1.symm
      have htag : t = c.tag := by
        have e1 := congrArg XElem.tag hc4
        rw [(insertMandatory_attrs _ _ _).2, (insertDeliveryday_attrs _ _ _).2,
          (attrPassTop_attrs _ _ _ _ _ _).2] at e1
        have h2 : (c.setAttr "id" newId.toStr).tag = c.tag := by
          cases c; simp [XElem.setAttr, XElem.tag]
        rw [h2] at e1
        simpa [XElem.tag] using e1.symm
      constructor
      · rw [← h]
        show lookupAttr "id" (XElem.mk t a x ch').attrs = some newId.toStr
        rw [show (XElem.mk t a x ch').attrs = a from rfl, hattrs]
        cases c with
        | mk tc0 ac0 xc0 chc0 =>
          simpa [XElem.setAttr, XElem.attrs] using lookup_set_same "id" newId.toStr ac0
      · rw [← h]
        simpa [XElem.tag] using htag

/-- C1 (amended): for every mapping row whose record is located and whose
stripped id is matched back to a CSV row, the transformed record is appended
to the output regardless of the validation outcome; the audit status merely
records OK or Not OK. -/
theorem c1_theorem (csv : List Row) (today : String) (st : MState) (r : Row)
    (c : XElem) (row2 : Row) (tc : XElem)
    (hfind : st.root.find (isCustomerWithId r.current_customer_id.toStr) = some c)
    (hrow : csv.find? (fun r2 => r2.current_customer_id.toStr ==
        pyStrip ((c.getAttr "id").getD "None")) = some row2)
    (htr : transformCustomer row2.new_customer_id row2.new_store_id row2.new_store_name
        row2.new_source_id row2.mandatory_reference (rowChecks st.errorReason row2).2.2
        (pyStrip ((c.getAttr "id").getD "None")) today c = .ok tc) :
    (processRow csv today st r).map MState.outChildren = .ok (st.outChildren ++ [tc]) ∧
    (processRow csv today st r).map (fun s => s.log.getLast?.map LogRow.status) =
      .ok (some (if (rowChecks st.errorReason row2).1 = true then "Not OK" else "OK")) := by
  cases hef : (rowChecks st.errorReason row2).1 with
  | false =>
    constructor
    · simp only [processRow, hfind, hrow, htr, hef, applyStatus]
      simp [Except.map]
    · simp only [processRow, hfind, hrow, htr, hef, applyStatus]
      simp [Except.map, List.getLast?_concat]
  | true =>
    obtain ⟨s, hs⟩ := rowChecks_reason_of_flag st.errorReason row2 hef
    constructor
    · simp only [processRow, hfind, hrow, htr, hef, hs, applyStatus]
      simp [Except.map]
    · simp only [processRow, hfind, hrow, htr, hef, hs, applyStatus]
      simp [Except.map, List.getLast?_concat]

theorem c1_witness :
    (processRow [fixRowInvalidDday] "T" fixState fixRowInvalidDday).map MState.outChildren =
      .ok (fixState.outChildren ++ [fixTcInvalid]) ∧
    (processRow [fixRowInvalidDday] "T" fixState fixRowInvalidDday).map
      (fun s => s.log.getLast?.map LogRow.status) =
      .ok (some (if (rowChecks fixState.errorReason fixRowInvalidDday).1 = true
        then "Not OK" else "OK")) :=
  c1_theorem [fixRowInvalidDday] "T" fixState fixRowInvalidDday fixCustomer
    fixRowInvalidDday fixTcInvalid (by decide) (by decide) (by decide)

/-- C2 (amended): the transformation mutates the matched record in place: the
source tree's matched position now holds the transformed record, whose
identifier is `str(new_customer_id)`; the output receives an equal-valued
clone. -/
theorem c2_theorem (csv : List Row) (today : String) (st : MState) (r : Row)
    (c : XElem) (row2 : Row) (tc : XElem)
    (hfind : st.root.find (isCustomerWithId r.current_customer_id.toStr) = some c)
    (hrow : csv.find? (fun r2 => r2.current_customer_id.toStr ==
        pyStrip ((c.getAttr "id").getD "None")) = some row2)
    (htr : transformCustomer row2.new_customer_id row2.new_store_id row2.new_store_name
        row2.new_source_id row2.mandatory_reference (rowChecks st.errorReason row2).2.2
        (pyStrip ((c.getAttr "id").getD "None")) today c = .ok tc) :
    (processRow csv today st r).map MState.root =
      .ok ((st.root.updFirst (isCustomerWithId r.current_customer_id.toStr)
        (fun _ => tc)).getD st.root) ∧
    tc.getAttr "id" = some row2.new_customer_id.toStr ∧
    (processRow csv today st r).map MState.outChildren = .ok (st.outChildren ++ [tc]) := by
  refine ⟨?_, (transform_id htr).1, ?_⟩
  · cases hef : (rowChecks st.errorReason row2).1 with
    | false =>
      simp only [processRow, hfind, hrow, htr, hef, applyStatus]
      simp [Except.map]
    | true =>
      obtain ⟨s, hs⟩ := rowChecks_reason_of_flag st.errorReason row2 hef
      simp only [processRow, hfind, hrow, htr, hef, hs, applyStatus]
      simp [Except.map]
  · cases hef : (rowChecks st.errorReason row2).1 with
    | false =>
      simp only [processRow, hfind, hrow, htr, hef, applyStatus]
      simp [Except.map]
    | true =>
      obtain ⟨s, hs⟩ := rowChecks_reason_of_flag st.errorReason row2 hef
      simp only [processRow, hfind, hrow, htr, hef, hs, applyStatus]
      simp [Except.map]

theorem c2_witness :
    (processRow [fixRowValid] "T" fixState fixRowValid).map MState.root =
      .ok ((fixState.root.updFirst (isCustomerWithId fixRowValid.current_customer_id.toStr)
        (fun _ => fixTcValid)).getD fixState.root) ∧
    fixTcValid.getAttr "id" = some fixRowValid.new_customer_id.toStr ∧
    (processRow [fixRowValid] "T" fixState fixRowValid).map MState.outChildren =
      .ok (fixState.outChildren ++ [fixTcValid]) :=
  c2_theorem [fixRowValid] "T" fixState fixRowValid fixCustomer fixRowValid fixTcValid
    (by decide) (by decide) (by decide)

theorem copyStep_getAttr_ne (root e : XElem) (n a : String) (hne : n ≠ a) :
    (copyStep root e n).getAttr a = e.getAttr a := by
  unfold copyStep
  cases root.getAttr n with
  | none => rfl
  | some s =>
    by_cases hs : s == ""
    · simp [hs]
    · simp [hs, getAttr_setAttr_ne _ _ _ _ hne]

theorem copyFold_getAttr_not_mem (root : XElem) (a : String) :
    ∀ (names : List String) (e : XElem), a ∉ names →
      (names.foldl (copyStep root) e).getAttr a = e.getAttr a := by
  intro names
  induction names with
  | nil => intro e _; rfl
  | cons n ns ih =>
    intro e ha
    have hne : n ≠ a := fun h => ha (h ▸ List.mem_cons_self _ _)
    simp only [List.foldl]
    rw [ih _ (fun h => ha (List.mem_cons_of_mem _ h)), copyStep_getAttr_ne _ _ _ _ hne]

theorem copyFold_getAttr_mem (root : XElem) (a : String) :
    ∀ (names : List String) (e : XElem), a ∈ names → names.Nodup →
      (names.foldl (copyStep root) e).getAttr a =
        (match root.getAttr a with
         | some s => if s == "" then e.getAttr a else some s
         | Option.none => e.getAttr a) := by
  intro names
  induction names with
  | nil => intro e ha _; simp at ha
  | cons n ns ih =>
    intro e ha hnd
    rcases List.mem_cons.mp ha with rfl | ha'
    · have hnot : a ∉ ns := (List.nodup_cons.mp hnd).1
      simp only [List.foldl]
      rw [copyFold_getAttr_not_mem root a ns _ hnot]
      unfold copyStep
      cases hr : root.getAttr a with
      | none => rfl
      | some s =>
        by_cases hs : s == ""
        · simp [hs]
        · simp [hs, getAttr_setAttr_same]
    · have hnd' := (List.nodup_cons.mp hnd).2
      have hne : n ≠ a := fun h => (List.nodup_cons.mp hnd).1 (h ▸ ha')
      simp only [List.foldl]
      rw [ih _ ha' hnd', copyStep_getAttr_ne _ _ _ _ hne]

/-- C6 (amended): when the row processing completes and the source root
carries the schemaLocation attribute, the batch completes, the output root
carries the copied schemaLocation, the audit log is produced, and each version
attribute is copied exactly when truthy on the source root. -/
theorem c6_theorem (csv : List Row) (today : String) (root : XElem) (st : MState) (sl : String)
    (hrun : csv.foldlM (processRow csv today)
      (⟨root, [], [], Option.none, Option.none, 0⟩ : MState) = .ok st)
    (hsl : st.root.getAttr schemaLocationKey = some sl) :
    (runMigration csv today root).map (fun res => res.outDoc.getAttr schemaLocationKey) =
      .ok (some sl) ∧
    (runMigration csv today root).map RunResult.log = .ok st.log ∧
    ∀ a ∈ versionAttrNames, (runMigration csv today root).map
        (fun res => res.outDoc.getAttr a) =
      .ok (match st.root.getAttr a with
           | some s => if s == "" then Option.none else some s
           | Option.none => Option.none) := by
  have hnm : schemaLocationKey ∉ versionAttrNames := by decide
  refine ⟨?_, ?_, ?_⟩
  · simp only [runMigration, hrun, assembleOutput, hsl]
    simp only [Except.map]
    rw [copyFold_getAttr_not_mem st.root schemaLocationKey versionAttrNames _ hnm]
    simp [XElem.getAttr, XElem.attrs, lookupAttr, schemaLocationKey]
  · simp only [runMigration, hrun, assembleOutput, hsl]
    simp [Except.map]
  · intro a ha
    simp only [runMigration, hrun, assembleOutput, hsl]
    simp only [Except.map]
    rw [copyFold_getAttr_mem st.root a versionAttrNames _ ha (by decide)]
    have hb : (XElem.mk st.root.tag [(schemaLocationKey, sl)] Option.none
        (XList.ofList st.outChildren)).getAttr a = Option.none := by
      fin_cases ha <;> simp [XElem.getAttr, XElem.attrs, lookupAttr, schemaLocationKey]
    rw [hb]

theorem c6_witness :
    (runMigration [] "T" fixRoot).map
      (fun res => res.outDoc.getAttr schemaLocationKey) = .ok (some "sl") ∧
    (runMigration [] "T" fixRoot).map
      (fun res => res.outDoc.getAttr "major") = .ok (some "7") ∧
    (runMigration [] "T" fixRoot).map
      (fun res => res.outDoc.getAttr "minor") = .ok Option.none := by
  have h := c6_theorem [] "T" fixRoot
    (⟨fixRoot, [], [], Option.none, Option.none, 0⟩ : MState) "sl" (by decide) (by decide)
  refine ⟨h.1, ?_, ?_⟩
  · have h2 := h.2.2 "major" (by decide)
    simpa using h2
  · have h2 := h.2.2 "minor" (by decide)
    simpa using h2

theorem setChildren_children (e : XElem) (ch : XList) :
    (e.setChildren ch).children = ch := by
  cases e; simp [XElem.setChildren, XElem.children]

mutual
theorem findAllL_filter (q r : XElem → Bool) :
    ∀ l : XList, findAllL (fun e => q e && r e) l = (findAllL q l).filter r
  | .nil => by simp [findAllL]
  | .cons c cs => by
    simp only [findAllL, List.filter_append]
    rw [findAllE_filter q r c, findAllL_filter q r cs]

theorem findAllE_filter (q r : XElem → Bool) :
    ∀ e : XElem, findAllE (fun e => q e && r e) e = (findAllE q e).filter r
  | .mk t a x ch => by
    simp only [findAllE, List.filter_append]
    rw [findAllL_filter q r ch]
    congr 1
    by_cases hq : q (.mk t a x ch) = true <;> by_cases hr : r (.mk t a x ch) = true <;>
      simp [hq, hr, List.filter]
end

mutual
theorem updFirstE_none (p : XElem → Bool) (f : XElem → XElem) :
    ∀ e : XElem, updFirstE p f e = Option.none → findAllE p e = []
  | .mk t a x ch => by
    intro h
    unfold updFirstE at h
    by_cases hp : p (.mk t a x ch) = true
    · simp [hp] at h
    · have hp' := Bool.eq_false_iff.mpr hp
      rw [if_neg (by simp [hp'])] at h
      cases hu : updFirstL p f ch with
      | some ch' => rw [hu] at h; simp at h
      | none =>
        simp only [findAllE, hp', if_false, List.nil_append]
        exact updFirstL_none p f ch hu

theorem updFirstL_none (p : XElem → Bool) (f : XElem → XElem) :
    ∀ l : XList, updFirstL p f l = Option.none → findAllL p l = []
  | .nil => by intro _; simp [findAllL]
  | .cons c cs => by
    intro h
    unfold updFirstL at h
    cases he : updFirstE p f c with
    | some c' => rw [he] at h; simp at h
    | none =>
      rw [he] at h
      cases hl : updFirstL p f cs with
      | some cs' => rw [hl] at h; simp at h
      | none =>
        simp only [findAllL, updFirstE_none p f c he, updFirstL_none p f cs hl,
          List.nil_append]
end

mutual
theorem updFirst_findE (p : XElem → Bool) (f : XElem → XElem)
    (hpc : ∀ t a x ch ch', p (.mk t a x ch) = p (.mk t a x ch'))
    (hf : ∀ m, p m = true → p (f m) = true) :
    ∀ (e e' : XElem), updFirstE p f e = some e' →
      ∃ m, (findAllE p e).head? = some m ∧ (findAllE p e').head? = some (f m)
  | .mk t a x ch, e' => by
    intro h
    unfold updFirstE at h
    by_cases hp : p (.mk t a x ch) = true
    · rw [if_pos hp] at h
      refine ⟨.mk t a x ch, ?_, ?_⟩
      · simp [findAllE, hp]
      · obtain rfl : f (.mk t a x ch) = e' := by simpa using h
        cases hfe : f (.mk t a x ch) with
        | mk t2 a2 x2 ch2 =>
          have : p (.mk t2 a2 x2 ch2) = true := hfe ▸ hf _ hp
          simp [findAllE, this, hfe]
    · have hp' := Bool.eq_false_iff.mpr hp
      rw [if_neg (by simp [hp'])] at h
      cases hu : updFirstL p f ch with
      | none => rw [hu] at h; simp at h
      | some ch' =>
        rw [hu] at h
        obtain rfl : XElem.mk t a x ch' = e' := by simpa using h
        obtain ⟨m, hm1, hm2⟩ := updFirst_findL p f hpc hf ch ch' hu
        refine ⟨m, ?_, ?_⟩
        · simp [findAllE, hp', hm1]
        · have : p (.mk t a x ch') = false := (hpc t a x ch ch').symm.trans hp'
          simp [findAllE, this, hm2]

theorem updFirst_findL (p : XElem → Bool) (f : XElem → XElem)
    (hpc : ∀ t a x ch ch', p (.mk t a x ch) = p (.mk t a x ch'))
    (hf : ∀ m, p m = true → p (f m) = true) :
    ∀ (l l' : XList), updFirstL p f l = some l' →
      ∃ m, (findAllL p l).head? = some m ∧ (findAllL p l').head? = some (f m)
  | .nil, l' => by intro h; simp [updFirstL] at h
  | .cons c cs, l' => by
    intro h
    unfold updFirstL at h
    cases he : updFirstE p f c with
    | some c' =>
      rw [he] at h
      obtain rfl : XList.cons c' cs = l' := by simpa using h
      obtain ⟨m, hm1, hm2⟩ := updFirst_findE p f hpc hf c c' he
      refine ⟨m, ?_, ?_⟩
      · simp [findAllL, List.head?_append, hm1]
      · simp [findAllL, List.head?_append, hm2]
    | none =>
      rw [he] at h
      cases hl : updFirstL p f cs with
      | none => rw [hl] at h; simp at h
      | some cs' =>
        rw [hl] at h
        obtain rfl : XList.cons c cs' = l' := by simpa using h
        obtain ⟨m, hm1, hm2⟩ := updFirst_findL p f hpc hf cs cs' hl
        have hce : findAllE p c = [] := updFirstE_none p f c he
        refine ⟨m, ?_, ?_⟩
        · simp [findAllL, hce, hm1]
        · simp [findAllL, hce, hm2]
end

theorem findAll_appendChild (p : XElem → Bool)
    (hpc : ∀ t a x ch ch', p (.mk t a x ch) = p (.mk t a x ch')) (e c : XElem) :
    (findAllE p (e.appendChild c)).length = (findAllE p e).length + (findAllE p c).length := by
  cases e with
  | mk t a x ch =>
    have : (XElem.mk t a x ch).appendChild c = .mk t a x (ch.append (.cons c .nil)) := by
      simp [XElem.appendChild, XElem.setChildren, XElem.children]
    rw [this]
    simp only [findAllE, findAllL_append, findAllL]
    rw [hpc t a x (ch.append (.cons c .nil)) ch]
    by_cases hp : p (.mk t a x ch) = true
    · simp [hp, findAllL]
      omega
    · have hp' := Bool.eq_false_iff.mpr hp
      simp [hp', findAllL]
      try omega

theorem hasCG_count (ug : XElem) :
    hasCGId ug = true ↔ 1 ≤ (findAllL isCGUserGroup ug.children).length := by
  have hfl : findAllL isCGUserGroup ug.children =
      (findAllL isUserGroupTag ug.children).filter
        (fun g => g.getAttr "id" == some "CG_Mekonomen") :=
    findAllL_filter isUserGroupTag (fun g => g.getAttr "id" == some "CG_Mekonomen") ug.children
  unfold hasCGId XElem.findall
  rw [hfl]
  constructor
  · intro h
    obtain ⟨g, hg, hgid⟩ := List.any_eq_true.mp h
    have : g ∈ (findAllL isUserGroupTag ug.children).filter
        (fun g => g.getAttr "id" == some "CG_Mekonomen") :=
      List.mem_filter.mpr ⟨hg, hgid⟩
    have hne : (findAllL isUserGroupTag ug.children).filter
        (fun g => g.getAttr "id" == some "CG_Mekonomen") ≠ [] :=
      List.ne_nil_of_mem this
    have := List.length_pos.mpr hne
    omega
  · intro h
    have hne : (findAllL isUserGroupTag ug.children).filter
        (fun g => g.getAttr "id" == some "CG_Mekonomen") ≠ [] := by
      intro hnil
      rw [hnil] at h
      simp at h
    obtain ⟨g, hg⟩ := List.exists_mem_of_ne_nil _ hne
    have := List.mem_filter.mp hg
    exact List.any_eq_true.mpr ⟨g, this.1, this.2⟩

/-- C7 (amended): the group-membership step of lines 227–234 yields a group
collection containing `CG_Mekonomen` exactly once whenever the account has a
group collection that contained the marker at most once beforehand; the add is
idempotent, so it never duplicates the marker. -/
theorem c7_theorem (u ug0 : XElem)
    (h1 : u.find isUserGroupsTag = some ug0)
    (h2 : (findAllE isCGUserGroup ug0).length ≤ 1) :
    ∃ ug', (addCGStep u).find isUserGroupsTag = some ug' ∧
      (findAllE isCGUserGroup ug').length = 1 := by
  have hpc : ∀ t a x ch ch', isUserGroupsTag (.mk t a x ch) = isUserGroupsTag (.mk t a x ch') := by
    intro t a x ch ch'; simp [isUserGroupsTag, XElem.tag]
  have hcgpc : ∀ t a x ch ch', isCGUserGroup (.mk t a x ch) = isCGUserGroup (.mk t a x ch') := by
    intro t a x ch ch'
    simp [isCGUserGroup, XElem.tag, XElem.getAttr, XElem.attrs]
  set f : XElem → XElem :=
    fun ug => if hasCGId ug then ug else ug.appendChild newCGUserGroup with hfdef
  have hf : ∀ m, isUserGroupsTag m = true → isUserGroupsTag (f m) = true := by
    intro m hm
    by_cases hc : hasCGId m = true
    · simpa [hfdef, hc] using hm
    · cases m with
      | mk t a x ch =>
        have hfm : f (.mk t a x ch) = .mk t a x (ch.append (.cons newCGUserGroup .nil)) := by
          simp [hfdef, hc, XElem.appendChild, XElem.setChildren, XElem.children]
        rw [hfm, ← hpc t a x ch (ch.append (.cons newCGUserGroup .nil))]
        exact hm
  -- the found element satisfies the predicate
  have hug0tag : isUserGroupsTag ug0 = true := find_pred h1
  have hug0cg : isCGUserGroup ug0 = false := by
    cases ug0 with
    | mk t a x ch =>
      simp only [isUserGroupsTag, XElem.tag] at hug0tag
      simp only [isCGUserGroup, XElem.tag]
      have : t = "user-groups" := by simpa using hug0tag
      subst this
      simp
  unfold XElem.find XElem.findall at h1
  cases hu : updFirstL isUserGroupsTag f u.children with
  | none => rw [updFirstL_none _ _ _ hu] at h1; simp at h1
  | some l' =>
    have hstep : addCGStep u = u.setChildren l' := by
      unfold addCGStep XElem.updFirst
      rw [← hfdef, hu]
      simp
    obtain ⟨m, hm1, hm2⟩ := updFirst_findL isUserGroupsTag f hpc hf u.children l' hu
    rw [h1] at hm1
    obtain rfl : ug0 = m := by simpa using hm1
    refine ⟨f ug0, ?_, ?_⟩
    · rw [hstep]
      unfold XElem.find XElem.findall
      rw [setChildren_children]
      exact hm2
    · -- count of the updated collection
      have hcount0 : (findAllE isCGUserGroup ug0).length =
          (findAllL isCGUserGroup ug0.children).length := by
        cases ug0 with
        | mk t a x ch => simp [findAllE, hug0cg, XElem.children]
      by_cases hc : hasCGId ug0 = true
      · have h1le := (hasCG_count ug0).mp hc
        have : (findAllE isCGUserGroup (f ug0)).length = (findAllE isCGUserGroup ug0).length := by
          simp [hfdef, hc]
        omega
      · have hc' : hasCGId ug0 = false := Bool.eq_false_iff.mpr hc
        have hzero : (findAllL isCGUserGroup ug0.children).length = 0 := by
          by_contra hne
          exact hc ((hasCG_count ug0).mpr (by omega))
        have hnew : (findAllE isCGUserGroup newCGUserGroup).length = 1 := by decide
        have : f ug0 = ug0.appendChild newCGUserGroup := by simp [hfdef, hc']
        rw [this, findAll_appendChild isCGUserGroup hcgpc, hnew, hcount0, hzero]

theorem c7_witness :
    ∃ ug', (addCGStep fixUserOneCG).find isUserGroupsTag = some ug' ∧
      (findAllE isCGUserGroup ug').length = 1 :=
  c7_theorem fixUserOneCG
    (.mk "user-groups" [] Option.none
      (.cons (.mk "user-group" [("id", "CG_Mekonomen")] Option.none .nil) .nil))
    (by decide) (by decide)

theorem ofList_toList : ∀ l : XList, XList.ofList (XList.toList l) = l
  | .nil => by simp [XList.toList, XList.ofList]
  | .cons c cs => by simp [XList.toList, XList.ofList, ofList_toList cs]

theorem setChildren_self : ∀ e : XElem, e.setChildren e.children = e
  | .mk t a x ch => by simp [XElem.setChildren, XElem.children]

theorem removeFirstEq_skip (x : XElem) :
    ∀ (pre : List XElem) (l : XList), (∀ y ∈ pre, y ≠ x) →
      removeFirstEq x (XList.ofList (pre ++ XList.toList (XList.cons x l))) =
        some (XList.ofList (pre ++ XList.toList l)) := by
  intro pre
  induction pre with
  | nil => intro l _; simp [XList.ofList, XList.toList, removeFirstEq, ofList_toList]
  | cons y pre' ih =>
    intro l hy
    have hyx : y ≠ x := hy y (List.mem_cons_self _ _)
    simp only [List.cons_append, XList.ofList, removeFirstEq, if_neg hyx]
    simp only [List.append_eq]
    rw [ih l (fun z hz => hy z (List.mem_cons_of_mem _ hz))]
    rfl

theorem findAll_no_nested (p : XElem → Bool) :
    ∀ l : XList, (∀ c ∈ XList.toList l, findAllL p c.children = []) →
      findAllL p l = (XList.toList l).filter p
  | .nil => by intro _; simp [findAllL, XList.toList]
  | .cons c cs => by
    intro h
    have hc := h c (by simp [XList.toList])
    have hcs := findAll_no_nested p cs (fun d hd => h d (by simp [XList.toList, hd]))
    cases c with
    | mk t a x ch =>
      simp only [XList.toList, List.filter_cons]
      simp only [XElem.children] at hc
      by_cases hp : p (.mk t a x ch) = true
      · simp [findAllL, findAllE, hp, hc, hcs]
      · have hp' := Bool.eq_false_iff.mpr hp
        simp [findAllL, findAllE, hp', hc, hcs]

theorem removeEach_go (p : XElem → Bool) :
    ∀ (L : List XElem) (pre : List XElem) (par : XElem), (∀ y ∈ pre, p y = false) →
      removeEach (L.filter p) (par.setChildren (XList.ofList (pre ++ L))) =
        .ok (par.setChildren (XList.ofList (pre ++ L.filter (fun c => !p c)))) := by
  intro L
  induction L with
  | nil => intro pre par _; simp [removeEach]
  | cons c L' ih =>
    intro pre par hpre
    by_cases hp : p c = true
    · have hskip : removeFirstEq c
          ((par.setChildren (XList.ofList (pre ++ c :: L'))).children) =
          some (XList.ofList (pre ++ L')) := by
        rw [setChildren_children]
        have := removeFirstEq_skip c pre (XList.ofList L')
          (fun y hy => fun he => by
            have := hpre y hy
            rw [he, hp] at this
            exact absurd this (by simp))
        simpa [XList.toList, toList_ofList] using this
      simp only [List.filter_cons, hp, if_true, removeEach, hskip]
      rw [setChildren_setChildren]
      rw [ih pre par hpre]
      simp [List.filter_cons, hp]
    · have hp' : p c = false := Bool.eq_false_iff.mpr hp
      have hpre' : ∀ y ∈ pre ++ [c], p y = false := by
        intro y hy
        rcases List.mem_append.mp hy with h | h
        · exact hpre y h
        · rcases List.mem_singleton.mp h with rfl; exact hp'
      have hassoc : pre ++ c :: L' = (pre ++ [c]) ++ L' := by simp
      have hassoc2 : pre ++ c :: L'.filter (fun c => !p c) =
          (pre ++ [c]) ++ L'.filter (fun c => !p c) := by simp
      simp only [List.filter_cons, hp', if_neg, Bool.false_eq_true, if_false]
      rw [hassoc]
      rw [ih (pre ++ [c]) par hpre']
      simp [hp']

theorem removeFirstEq_split (x : XElem) :
    ∀ (l : XList) (l' : XList), removeFirstEq x l = some l' →
      ∃ L1 L2, XList.toList l = L1 ++ x :: L2 ∧ XList.toList l' = L1 ++ L2 ∧ x ∉ L1
  | .nil, l' => by intro h; simp [removeFirstEq] at h
  | .cons c cs, l' => by
    intro h
    unfold removeFirstEq at h
    by_cases hc : c = x
    · subst hc
      rw [if_pos rfl] at h
      obtain rfl : cs = l' := by simpa using h
      exact ⟨[], XList.toList cs, by simp [XList.toList], by simp, by simp⟩
    · rw [if_neg hc] at h
      cases hr : removeFirstEq x cs with
      | none => rw [hr] at h; simp at h
      | some cs' =>
        rw [hr] at h
        obtain rfl : XList.cons c cs' = l' := by simpa using h
        obtain ⟨L1, L2, h1, h2, h3⟩ := removeFirstEq_split x cs cs' hr
        exact ⟨c :: L1, L2, by simp [XList.toList, h1],
          by simp [XList.toList, h2],
          by simp only [List.mem_cons, not_or]; exact ⟨fun he => hc he.symm, h3⟩⟩

theorem removeFirstEq_isSome_of_mem (x : XElem) :
    ∀ l : XList, x ∈ XList.toList l → (removeFirstEq x l).isSome = true
  | .nil => by simp [XList.toList]
  | .cons c cs => by
    intro hm
    unfold removeFirstEq
    by_cases hc : c = x
    · simp [hc]
    · rcases List.mem_cons.mp hm with h | h
      · exact absurd h.symm hc
      · have := removeFirstEq_isSome_of_mem x cs h
        rw [if_neg hc]
        cases hr : removeFirstEq x cs with
        | none => rw [hr] at this; simp at this
        | some cs' => simp

/-- C8 (amended): the LastOrderDate removal of lines 237–240 removes every
`LastOrderDate` entry of the account's first custom-attributes collection,
while the last-logged-in removal of lines 245–247 removes only the first
occurrence: when the collection's entries nest no further matches and the
credentials held at most one `last-logged-in`, nothing remains of either after
the steps succeed. -/
theorem c8_theorem (ca cr : XElem)
    (hA : ∀ c ∈ XList.toList ca.children, findAllL isLODAttr c.children = [])
    (hB : ∀ c ∈ XList.toList cr.children, findAllL isLLITag c.children = [])
    (hB1 : (findAllL isLLITag cr.children).length ≤ 1) :
    (∃ ca', removeLODFrom ca = .ok ca' ∧ findAllL isLODAttr ca'.children = []) ∧
    (∃ cr', removeLLIFrom cr = .ok cr' ∧ findAllL isLLITag cr'.children = []) := by
  constructor
  · have hfilt : findAllL isLODAttr ca.children =
        (XList.toList ca.children).filter isLODAttr := findAll_no_nested _ _ hA
    have hgo := removeEach_go isLODAttr (XList.toList ca.children) [] ca (by simp)
    simp only [List.nil_append, ofList_toList, setChildren_self] at hgo
    refine ⟨ca.setChildren (XList.ofList
      ((XList.toList ca.children).filter (fun c => !isLODAttr c))), ?_, ?_⟩
    · unfold removeLODFrom XElem.findall
      rw [hfilt]
      exact hgo
    · rw [setChildren_children]
      have hnest : ∀ c ∈ XList.toList (XList.ofList
          ((XList.toList ca.children).filter (fun c => !isLODAttr c))),
          findAllL isLODAttr c.children = [] := by
        intro c hc
        rw [toList_ofList] at hc
        exact hA c (List.mem_of_mem_filter hc)
      rw [findAll_no_nested _ _ hnest, toList_ofList, List.filter_filter]
      apply List.filter_eq_nil_iff.mpr
      intro c _
      simp
  · have hfilt : findAllL isLLITag cr.children =
        (XList.toList cr.children).filter isLLITag := findAll_no_nested _ _ hB
    unfold removeLLIFrom XElem.find XElem.findall
    rw [hfilt] at hB1 ⊢
    cases hfil : (XList.toList cr.children).filter isLLITag with
    | nil =>
      simp only [hfil, List.head?_nil]
      exact ⟨cr, rfl, by rw [hfilt, hfil]⟩
    | cons m rest =>
      have hrest : rest = [] := by
        rw [hfil] at hB1
        simpa using hB1
      subst hrest
      simp only [hfil, List.head?_cons]
      have hmmem : m ∈ XList.toList cr.children :=
        List.mem_of_mem_filter (hfil ▸ List.mem_cons_self m [])
      have hpm : isLLITag m = true :=
        (List.mem_filter.mp (hfil ▸ List.mem_cons_self m [])).2
      have hsome := removeFirstEq_isSome_of_mem m cr.children hmmem
      cases hrm : removeFirstEq m cr.children with
      | none => rw [hrm] at hsome; simp at hsome
      | some ch' =>
        unfold XElem.removeChild
        rw [hrm]
        refine ⟨cr.setChildren ch', rfl, ?_⟩
        rw [setChildren_children]
        obtain ⟨L1, L2, h1, h2, h3⟩ := removeFirstEq_split m cr.children ch' hrm
        have hnest' : ∀ c ∈ XList.toList ch', findAllL isLLITag c.children = [] := by
          intro c hc
          rw [h2] at hc
          apply hB
          rw [h1]
          rcases List.mem_append.mp hc with h | h
          · exact List.mem_append.mpr (Or.inl h)
          · exact List.mem_append.mpr (Or.inr (List.mem_cons_of_mem _ h))
        rw [findAll_no_nested _ _ hnest', h2]
        have hfl : (L1 ++ m :: L2).filter isLLITag = [m] := by rw [← h1, hfil]
        rw [List.filter_append, List.filter_cons, if_pos (by simpa using hpm)] at hfl
        have hlen := congrArg List.length hfl
        simp at hlen
        have hl1 : (List.filter isLLITag L1).length = 0 := by omega
        have hl2 : (List.filter isLLITag L2).length = 0 := by omega
        rw [List.filter_append, List.eq_nil_of_length_eq_zero hl1,
          List.eq_nil_of_length_eq_zero hl2]
        rfl

theorem c8_witness :
    (∃ ca', removeLODFrom fixCADupLOD = .ok ca' ∧ findAllL isLODAttr ca'.children = []) ∧
    (∃ cr', removeLLIFrom fixCROneLLI = .ok cr' ∧ findAllL isLLITag cr'.children = []) :=
  c8_theorem fixCADupLOD fixCROneLLI (by decide) (by decide) (by decide)

theorem findAllE_length_pos (p : XElem → Bool) (e : XElem) (h : p e = true) :
    1 ≤ (findAllE p e).length := by
  cases e with
  | mk t a x ch => simp [findAllE, h]

mutual
theorem updFirst_count_relE (p P : XElem → Bool) (f : XElem → XElem)
    (hPc : ∀ t a x ch ch', P (.mk t a x ch) = P (.mk t a x ch')) :
    ∀ (e e' : XElem), updFirstE p f e = some e' →
      ∃ m, (findAllE p e).head? = some m ∧
        (findAllE P e').length + (findAllE P m).length =
          (findAllE P e).length + (findAllE P (f m)).length
  | .mk t a x ch, e' => by
    intro h
    unfold updFirstE at h
    by_cases hp : p (.mk t a x ch) = true
    · rw [if_pos hp] at h
      obtain rfl : f (.mk t a x ch) = e' := by simpa using h
      exact ⟨.mk t a x ch, by simp [findAllE, hp], by omega⟩
    · have hp' := Bool.eq_false_iff.mpr hp
      rw [if_neg (by simp [hp'])] at h
      cases hu : updFirstL p f ch with
      | none => rw [hu] at h; simp at h
      | some ch' =>
        rw [hu] at h
        obtain rfl : XElem.mk t a x ch' = e' := by simpa using h
        obtain ⟨m, hm1, hm2⟩ := updFirst_count_relL p P f hPc ch ch' hu
        refine ⟨m, by simp [findAllE, hp', hm1], ?_⟩
        by_cases hq : P (.mk t a x ch) = true
        · have hq' : P (.mk t a x ch') = true := (hPc t a x ch ch') ▸ hq
          simp only [findAllE, hq, hq', if_true]
          simp only [List.length_append, List.length_cons, List.length_nil]
          omega
        · have h1 := Bool.eq_false_iff.mpr hq
          have h2 : P (.mk t a x ch') = false := (hPc t a x ch ch') ▸ h1
          simp only [findAllE, h1, h2, Bool.false_eq_true, if_false, List.nil_append]
          omega

theorem updFirst_count_relL (p P : XElem → Bool) (f : XElem → XElem)
    (hPc : ∀ t a x ch ch', P (.mk t a x ch) = P (.mk t a x ch')) :
    ∀ (l l' : XList), updFirstL p f l = some l' →
      ∃ m, (findAllL p l).head? = some m ∧
        (findAllL P l').length + (findAllE P m).length =
          (findAllL P l).length + (findAllE P (f m)).length
  | .nil, l' => by intro h; simp [updFirstL] at h
  | .cons c cs, l' => by
    intro h
    unfold updFirstL at h
    cases he : updFirstE p f c with
    | some c' =>
      rw [he] at h
      obtain rfl : XList.cons c' cs = l' := by simpa using h
      obtain ⟨m, hm1, hm2⟩ := updFirst_count_relE p P f hPc c c' he
      refine ⟨m, ?_, ?_⟩
      · simp [findAllL, List.head?_append, hm1]
      · simp only [findAllL, List.length_append]
        omega
    | none =>
      rw [he] at h
      cases hl : updFirstL p f cs with
      | none => rw [hl] at h; simp at h
      | some cs' =>
        rw [hl] at h
        obtain rfl : XList.cons c cs' = l' := by simpa using h
        obtain ⟨m, hm1, hm2⟩ := updFirst_count_relL p P f hPc cs cs' hl
        have hce : findAllE p c = [] := updFirstE_none p f c he
        refine ⟨m, by simp [findAllL, hce, hm1], ?_⟩
        simp only [findAllL, List.length_append]
        omega
end

theorem updFirst_count_eqL (p P : XElem → Bool) (f : XElem → XElem)
    (hPc : ∀ t a x ch ch', P (.mk t a x ch) = P (.mk t a x ch'))
    (hf : ∀ m, p m = true → (findAllE P (f m)).length = (findAllE P m).length)
    (l l' : XList) (h : updFirstL p f l = some l') :
    (findAllL P l').length = (findAllL P l).length := by
  obtain ⟨m, hm1, hm2⟩ := updFirst_count_relL p P f hPc l l' h
  have hpm : p m = true :=
    findAll_pred p m l (List.mem_of_mem_head? hm1)
  have := hf m hpm
  omega

mutual
theorem updFirstM_count_leE (p P : XElem → Bool) (f : XElem → Except PyErr XElem)
    (hPc : ∀ t a x ch ch', P (.mk t a x ch) = P (.mk t a x ch'))
    (hf : ∀ m m', f m = .ok m' → (findAllE P m').length ≤ (findAllE P m).length) :
    ∀ (e e' : XElem), updFirstME p f e = .ok (some e') →
      (findAllE P e').length ≤ (findAllE P e).length
  | .mk t a x ch, e' => by
    intro h
    unfold updFirstME at h
    by_cases hp : p (.mk t a x ch) = true
    · rw [if_pos hp] at h
      cases hfe : f (.mk t a x ch) with
      | error err => rw [hfe] at h; simp at h
      | ok m' =>
        rw [hfe] at h
        obtain rfl : m' = e' := by simpa using h
        exact hf _ _ hfe
    · have hp' := Bool.eq_false_iff.mpr hp
      rw [if_neg (by simp [hp'])] at h
      cases hu : updFirstML p f ch with
      | error err => rw [hu] at h; simp at h
      | ok o =>
        cases o with
        | none => rw [hu] at h; simp at h
        | some ch' =>
          rw [hu] at h
          obtain rfl : XElem.mk t a x ch' = e' := by simpa using h
          have ihl := updFirstM_count_leL p P f hPc hf ch ch' hu
          by_cases hq : P (.mk t a x ch) = true
          · have hq' : P (.mk t a x ch') = true := (hPc t a x ch ch') ▸ hq
            simp only [findAllE, hq, hq', if_true, List.length_append, List.length_cons,
              List.length_nil]
            omega
          · have h1 := Bool.eq_false_iff.mpr hq
            have h2 : P (.mk t a x ch') = false := (hPc t a x ch ch') ▸ h1
            simp only [findAllE, h1, h2, Bool.false_eq_true, if_false, List.nil_append]
            omega

theorem updFirstM_count_leL (p P : XElem → Bool) (f : XElem → Except PyErr XElem)
    (hPc : ∀ t a x ch ch', P (.mk t a x ch) = P (.mk t a x ch'))
    (hf : ∀ m m', f m = .ok m' → (findAllE P m').length ≤ (findAllE P m).length) :
    ∀ (l l' : XList), updFirstML p f l = .ok (some l') →
      (findAllL P l').length ≤ (findAllL P l).length
  | .nil, l' => by intro h; simp [updFirstML] at h
  | .cons c cs, l' => by
    intro h
    unfold updFirstML at h
    cases he : updFirstME p f c with
    | error err => rw [he] at h; simp at h
    | ok o =>
      cases o with
      | some c' =>
        rw [he] at h
        obtain rfl : XList.cons c' cs = l' := by simpa using h
        have := updFirstM_count_leE p P f hPc hf c c' he
        simp only [findAllL, List.length_append]
        omega
      | none =>
        rw [he] at h
        cases hl : updFirstML p f cs with
        | error err => rw [hl] at h; simp at h
        | ok o2 =>
          cases o2 with
          | none => rw [hl] at h; simp at h
          | some cs' =>
            rw [hl] at h
            obtain rfl : XList.cons c cs' = l' := by simpa using h
            have := updFirstM_count_leL p P f hPc hf cs cs' hl
            simp only [findAllL, List.length_append]
            omega
end

theorem removeFirstEq_count_le (P : XElem → Bool) (x : XElem) :
    ∀ (l l' : XList), removeFirstEq x l = some l' →
      (findAllL P l').length ≤ (findAllL P l).length
  | .nil, l' => by intro h; simp [removeFirstEq] at h
  | .cons c cs, l' => by
    intro h
    unfold removeFirstEq at h
    by_cases hc : c = x
    · rw [if_pos hc] at h
      obtain rfl : cs = l' := by simpa using h
      simp only [findAllL, List.length_append]
      omega
    · rw [if_neg hc] at h
      cases hr : removeFirstEq x cs with
      | none => rw [hr] at h; simp at h
      | some cs' =>
        rw [hr] at h
        obtain rfl : XList.cons c cs' = l' := by simpa using h
        have := removeFirstEq_count_le P x cs cs' hr
        simp only [findAllL, List.length_append]
        omega

theorem removeEach_count_le (P : XElem → Bool)
    (hPc : ∀ t a x ch ch', P (.mk t a x ch) = P (.mk t a x ch')) :
    ∀ (xs : List XElem) (par par' : XElem), removeEach xs par = .ok par' →
      (findAllE P par').length ≤ (findAllE P par).length := by
  intro xs
  induction xs with
  | nil =>
    intro par par' h
    obtain rfl : par = par' := by simpa [removeEach] using h
    exact le_refl _
  | cons x r ih =>
    intro par par' h
    unfold removeEach at h
    cases hr : removeFirstEq x par.children with
    | none => rw [hr] at h; simp at h
    | some ch' =>
      rw [hr] at h
      have h1 := ih _ _ h
      have h2 := removeFirstEq_count_le P x par.children ch' hr
      have h3 : (findAllE P (par.setChildren ch')).length ≤ (findAllE P par).length := by
        cases par with
        | mk t a x0 ch =>
          simp only [XElem.setChildren, XElem.children] at hr ⊢
          by_cases hq : P (.mk t a x0 ch) = true
          · have hq' : P (.mk t a x0 ch') = true := (hPc t a x0 ch ch') ▸ hq
            simp only [findAllE, hq, hq', if_true, List.length_append, List.length_cons,
              List.length_nil]
            simp only [XElem.children] at h2
            omega
          · have hq1 := Bool.eq_false_iff.mpr hq
            have hq2 : P (.mk t a x0 ch') = false := (hPc t a x0 ch ch') ▸ hq1
            simp only [findAllE, hq1, hq2, Bool.false_eq_true, if_false, List.nil_append]
            simpa [XElem.children] using h2
      exact le_trans h1 h3

theorem isCWI_mk (cid t : String) (a : List (String × String)) (x : Option String) (ch : XList) :
    isCustomerWithId cid (.mk t a x ch) =
      (t == "customer" && lookupAttr "id" a == some cid) := rfl

theorem isCWI_hPc (cid : String) : ∀ (t : String) (a : List (String × String))
    (x : Option String) (ch ch' : XList),
    isCustomerWithId cid (.mk t a x ch) = isCustomerWithId cid (.mk t a x ch') := by
  intro t a x ch ch'
  rw [isCWI_mk, isCWI_mk]

mutual
theorem subText_countE (cid0 nid cid : String) :
    ∀ e : XElem, (findAllE (isCustomerWithId cid) (subTextE cid0 nid e)).length =
      (findAllE (isCustomerWithId cid) e).length
  | .mk t a x ch => by
    simp only [subTextE, findAllE, isCWI_mk, List.length_append]
    rw [subText_countL cid0 nid cid ch]
    split <;> simp
  termination_by e => sizeOf e

theorem subText_countL (cid0 nid cid : String) :
    ∀ l : XList, (findAllL (isCustomerWithId cid) (subTextL cid0 nid l)).length =
      (findAllL (isCustomerWithId cid) l).length
  | .nil => by simp [subTextL, findAllL]
  | .cons c cs => by
    simp only [subTextL, findAllL, List.length_append]
    rw [subText_countE cid0 nid cid c, subText_countL cid0 nid cid cs]
  termination_by l => sizeOf l
end

mutual
theorem attrPass_countE (n1 n2 n3 mr dd : Cell) (cid : String) :
    ∀ e : XElem, (findAllE (isCustomerWithId cid) (attrPassE n1 n2 n3 mr dd e).1).length =
      (findAllE (isCustomerWithId cid) e).length
  | .mk t a x ch => by
    rcases h1 : (if t == "custom-attribute" then
        rewriteAttrText n1 n2 n3 mr dd (lookupAttr "name" a) x
      else (x, false, false)) with ⟨x', m1, d1⟩
    rcases h2 : attrPassL n1 n2 n3 mr dd ch with ⟨ch', m2, d2⟩
    have hE : (attrPassE n1 n2 n3 mr dd (.mk t a x ch)).1 = .mk t a x' ch' := by
      simp only [attrPassE]
      rw [h1, h2]
    rw [hE]
    have ihl := attrPass_countL n1 n2 n3 mr dd cid ch
    rw [h2] at ihl
    simp only [findAllE, isCWI_mk, List.length_append]
    rw [ihl]
    split <;> simp
  termination_by e => sizeOf e

theorem attrPass_countL (n1 n2 n3 mr dd : Cell) (cid : String) :
    ∀ l : XList, (findAllL (isCustomerWithId cid) (attrPassL n1 n2 n3 mr dd l).1).length =
      (findAllL (isCustomerWithId cid) l).length
  | .nil => by simp [attrPassL, findAllL]
  | .cons c cs => by
    rcases h1 : attrPassE n1 n2 n3 mr dd c with ⟨c', m1, d1⟩
    rcases h2 : attrPassL n1 n2 n3 mr dd cs with ⟨cs', m2, d2⟩
    have hL : (attrPassL n1 n2 n3 mr dd (.cons c cs)).1 = .cons c' cs' := by
      simp only [attrPassL]
      rw [h1, h2]
    rw [hL]
    have ih1 := attrPass_countE n1 n2 n3 mr dd cid c
    have ih2 := attrPass_countL n1 n2 n3 mr dd cid cs
    rw [h1] at ih1
    rw [h2] at ih2
    simp only [findAllL, List.length_append]
    rw [ih1, ih2]
  termination_by l => sizeOf l
end

theorem countE_setChildren_eq (cid : String) (ca : XElem) (ch' : XList)
    (h : (findAllL (isCustomerWithId cid) ch').length =
      (findAllL (isCustomerWithId cid) ca.children).length) :
    (findAllE (isCustomerWithId cid) (ca.setChildren ch')).length =
      (findAllE (isCustomerWithId cid) ca).length := by
  cases ca with
  | mk t a x ch =>
    simp only [XElem.setChildren, XElem.children] at h ⊢
    simp only [findAllE, isCWI_mk, List.length_append]
    rw [h]
    split <;> simp

theorem count_putTextDt (cid v s : String) (m : XElem) :
    (findAllE (isCustomerWithId cid) ((m.setText (some v)).setAttr "dt" s)).length =
      (findAllE (isCustomerWithId cid) m).length := by
  cases m with
  | mk t a x ch =>
    simp only [XElem.setText, XElem.setAttr, findAllE, isCWI_mk, List.length_append]
    simp only [lookup_set_ne "id" "dt" s a (by decide)]
    split <;> simp

theorem count_setText (cid : String) (v : Option String) (m : XElem) :
    (findAllE (isCustomerWithId cid) (m.setText v)).length =
      (findAllE (isCustomerWithId cid) m).length := by
  cases m with
  | mk t a x ch =>
    simp only [XElem.setText, findAllE, isCWI_mk, List.length_append]
    split <;> simp

theorem count_newAttr (cid t2 : String) (a2 : List (String × String)) (x2 : Option String)
    (hne : (t2 == "customer") = false) :
    (findAllE (isCustomerWithId cid) (.mk t2 a2 x2 .nil)).length = 0 := by
  simp [findAllE, isCWI_mk, findAllL, hne]

theorem putDday_count (cid : String) (dday : Cell) (ca : XElem) :
    (findAllE (isCustomerWithId cid) (putDdayAttr dday ca)).length =
      (findAllE (isCustomerWithId cid) ca).length := by
  unfold putDdayAttr
  cases hu : updFirstL isDdayAttr
      (fun m => (m.setText (some dday.toStr)).setAttr "dt" "string") ca.children with
  | some ch' =>
    exact countE_setChildren_eq cid ca ch'
      (updFirst_count_eqL _ _ _ (isCWI_hPc cid)
        (fun m _ => count_putTextDt cid dday.toStr "string" m) _ _ hu)
  | none =>
    rw [findAll_appendChild _ (isCWI_hPc cid), count_newAttr cid _ _ _ (by decide)]
    omega

theorem putMand_count (cid : String) (mref : Cell) (ca : XElem) :
    (findAllE (isCustomerWithId cid) (putMandAttr mref ca)).length =
      (findAllE (isCustomerWithId cid) ca).length := by
  unfold putMandAttr
  cases hu : updFirstL isMandAttr
      (fun m => (m.setText (some (pyLower mref.toStr))).setAttr "dt" "boolean") ca.children with
  | some ch' =>
    exact countE_setChildren_eq cid ca ch'
      (updFirst_count_eqL _ _ _ (isCWI_hPc cid)
        (fun m _ => count_putTextDt cid (pyLower mref.toStr) "boolean" m) _ _ hu)
  | none =>
    rw [findAll_appendChild _ (isCWI_hPc cid), count_newAttr cid _ _ _ (by decide)]
    omega

theorem insertDday_count (cid : String) (dday : Cell) (b : Bool) (c : XElem) :
    (findAllE (isCustomerWithId cid) (insertDeliveryday dday b c)).length =
      (findAllE (isCustomerWithId cid) c).length := by
  unfold insertDeliveryday
  split
  · unfold XElem.updFirst
    cases hu : updFirstL isCustomAttrsTag (putDdayAttr dday) c.children with
    | some ch' =>
      simp only [Option.map_some']
      exact countE_setChildren_eq cid c ch'
        (updFirst_count_eqL _ _ _ (isCWI_hPc cid) (fun m _ => putDday_count cid dday m) _ _ hu)
    | none =>
      simp only [Option.map_none']
      rw [findAll_appendChild _ (isCWI_hPc cid)]
      rw [putDday_count cid dday (.mk "custom-attributes" [] Option.none .nil),
        count_newAttr cid _ _ _ (by decide)]
      omega
  · rfl

theorem insertMand_count (cid : String) (mref : Cell) (b : Bool) (c : XElem) :
    (findAllE (isCustomerWithId cid) (insertMandatory mref b c)).length =
      (findAllE (isCustomerWithId cid) c).length := by
  unfold insertMandatory
  split
  · unfold XElem.updFirst
    cases hu : updFirstL isCustomAttrsTag (putMandAttr mref) c.children with
    | some ch' =>
      simp only [Option.map_some']
      exact countE_setChildren_eq cid c ch'
        (updFirst_count_eqL _ _ _ (isCWI_hPc cid) (fun m _ => putMand_count cid mref m) _ _ hu)
    | none =>
      simp only [Option.map_none']
      rw [findAll_appendChild _ (isCWI_hPc cid)]
      rw [putMand_count cid mref (.mk "custom-attributes" [] Option.none .nil),
        count_newAttr cid _ _ _ (by decide)]
      omega
  · rfl

theorem setBpno_count (cid cid0 nid : String) (u : XElem) :
    (findAllE (isCustomerWithId cid) (setBpno cid0 nid u)).length =
      (findAllE (isCustomerWithId cid) u).length := by
  unfold setBpno
  split
  · cases u with
    | mk t a x ch =>
      simp only [XElem.setAttr, findAllE, isCWI_mk, List.length_append]
      simp only [lookup_set_ne "id" "business-partner-no" nid a (by decide)]
      split <;> simp
  · rfl

theorem addCG_count (cid : String) (u : XElem) :
    (findAllE (isCustomerWithId cid) (addCGStep u)).length =
      (findAllE (isCustomerWithId cid) u).length := by
  unfold addCGStep XElem.updFirst
  cases hu : updFirstL isUserGroupsTag
      (fun ug => if hasCGId ug then ug else ug.appendChild newCGUserGroup) u.children with
  | some ch' =>
    simp only [Option.map_some']
    refine countE_setChildren_eq cid u ch'
      (updFirst_count_eqL _ _ _ (isCWI_hPc cid) (fun m _ => ?_) _ _ hu)
    by_cases hc : hasCGId m = true
    · simp [hc]
    · have hc' := Bool.eq_false_iff.mpr hc
      simp only [hc', Bool.false_eq_true, if_false]
      rw [findAll_appendChild _ (isCWI_hPc cid)]
      have : (findAllE (isCustomerWithId cid) newCGUserGroup).length = 0 :=
        count_newAttr cid _ _ _ (by decide)
      omega
  | none => simp only [Option.map_none']

theorem setCreationDate_count (cid today : String) (u : XElem) :
    (findAllE (isCustomerWithId cid) (setCreationDate today u)).length =
      (findAllE (isCustomerWithId cid) u).length := by
  unfold setCreationDate XElem.updFirst
  cases hu : updFirstL isProfileTag (fun pr =>
      match updFirstL isCreationDateTag (fun cd => cd.setText (some today)) pr.children with
      | some ch' => pr.setChildren ch'
      | Option.none => pr) u.children with
  | some ch' =>
    simp only [Option.map_some']
    refine countE_setChildren_eq cid u ch'
      (updFirst_count_eqL _ _ _ (isCWI_hPc cid) (fun m _ => ?_) _ _ hu)
    cases hin : updFirstL isCreationDateTag (fun cd => cd.setText (some today)) m.children with
    | some ch2 =>
      exact countE_setChildren_eq cid m ch2
        (updFirst_count_eqL _ _ _ (isCWI_hPc cid) (fun m2 _ => count_setText cid _ m2) _ _ hin)
    | none => rfl
  | none => simp only [Option.map_none']

theorem removeLODFrom_count_le (cid : String) (m m' : XElem)
    (h : removeLODFrom m = .ok m') :
    (findAllE (isCustomerWithId cid) m').length ≤
      (findAllE (isCustomerWithId cid) m).length :=
  removeEach_count_le _ (isCWI_hPc cid) _ _ _ h

theorem removeLODStep_count_le (cid : String) (u u' : XElem)
    (h : removeLODStep u = .ok u') :
    (findAllE (isCustomerWithId cid) u').length ≤
      (findAllE (isCustomerWithId cid) u).length := by
  unfold removeLODStep XElem.updFirstM at h
  cases hm : updFirstML isCustomAttrsTag removeLODFrom u.children with
  | error e => rw [hm] at h; simp at h
  | ok o =>
    cases o with
    | none =>
      rw [hm] at h
      obtain rfl : u = u' := by simpa using h
      exact le_refl _
    | some ch' =>
      rw [hm] at h
      obtain rfl : u.setChildren ch' = u' := by simpa using h
      have hle := updFirstM_count_leL _ _ _ (isCWI_hPc cid)
        (fun m m' hok => removeLODFrom_count_le cid m m' hok) u.children ch' hm
      cases u with
      | mk t a x ch =>
        simp only [XElem.setChildren, XElem.children] at hle ⊢
        simp only [findAllE, isCWI_mk, List.length_append]
        split <;> simp <;> omega

theorem removeLLIFrom_count_le (cid : String) (m m' : XElem)
    (h : removeLLIFrom m = .ok m') :
    (findAllE (isCustomerWithId cid) m').length ≤
      (findAllE (isCustomerWithId cid) m).length := by
  unfold removeLLIFrom at h
  cases hf : m.find isLLITag with
  | none =>
    simp only [hf] at h
    obtain rfl : m = m' := by simpa using h
    exact le_refl _
  | some x =>
    simp only [hf] at h
    unfold XElem.removeChild at h
    cases hr : removeFirstEq x m.children with
    | none => simp only [hr] at h; exact absurd h (by simp)
    | some ch' =>
      simp only [hr] at h
      obtain rfl : m.setChildren ch' = m' := by simpa using h
      have hle := removeFirstEq_count_le (isCustomerWithId cid) x m.children ch' hr
      cases m with
      | mk t a x0 ch =>
        simp only [XElem.setChildren, XElem.children] at hle ⊢
        simp only [findAllE, isCWI_mk, List.length_append]
        split <;> simp <;> omega

theorem removeLLIStep_count_le (cid : String) (u u' : XElem)
    (h : removeLLIStep u = .ok u') :
    (findAllE (isCustomerWithId cid) u').length ≤
      (findAllE (isCustomerWithId cid) u).length := by
  unfold removeLLIStep XElem.updFirstM at h
  cases hm : updFirstML isCredentialsTag removeLLIFrom u.children with
  | error e => rw [hm] at h; simp at h
  | ok o =>
    cases o with
    | none =>
      rw [hm] at h
      obtain rfl : u = u' := by simpa using h
      exact le_refl _
    | some ch' =>
      rw [hm] at h
      obtain rfl : u.setChildren ch' = u' := by simpa using h
      have hle := updFirstM_count_leL _ _ _ (isCWI_hPc cid)
        (fun m m' hok => removeLLIFrom_count_le cid m m' hok) u.children ch' hm
      cases u with
      | mk t a x ch =>
        simp only [XElem.setChildren, XElem.children] at hle ⊢
        simp only [findAllE, isCWI_mk, List.length_append]
        split <;> simp <;> omega

theorem updateUser_count_le (cid0 nid today cid : String) (u u' : XElem)
    (h : updateUser cid0 nid today u = .ok u') :
    (findAllE (isCustomerWithId cid) u').length ≤
      (findAllE (isCustomerWithId cid) u).length := by
  simp only [updateUser, bind, Except.bind] at h
  cases h3 : removeLODStep (addCGStep (subTextE cid0 nid (setBpno cid0 nid u))) with
  | error e => simp only [h3] at h; exact absurd h (by simp)
  | ok u3 =>
    simp only [h3] at h
    cases h4 : removeLLIStep u3 with
    | error e => simp only [h4] at h; exact absurd h (by simp)
    | ok u4 =>
      simp only [h4] at h
      simp only [pure, Except.pure, Except.ok.injEq] at h
      subst h
      calc (findAllE (isCustomerWithId cid) (setCreationDate today u4)).length
          = (findAllE (isCustomerWithId cid) u4).length := setCreationDate_count cid today u4
        _ ≤ (findAllE (isCustomerWithId cid) u3).length := removeLLIStep_count_le cid u3 u4 h4
        _ ≤ (findAllE (isCustomerWithId cid)
            (addCGStep (subTextE cid0 nid (setBpno cid0 nid u)))).length :=
          removeLODStep_count_le cid _ u3 h3
        _ = (findAllE (isCustomerWithId cid) (subTextE cid0 nid (setBpno cid0 nid u))).length :=
          addCG_count cid _
        _ = (findAllE (isCustomerWithId cid) (setBpno cid0 nid u)).length :=
          subText_countE cid0 nid cid _
        _ = (findAllE (isCustomerWithId cid) u).length := setBpno_count cid cid0 nid u

theorem updUsers_count_le (cid0 nid today cid : String) :
    ∀ (l l' : XList), updUsersL cid0 nid today l = .ok l' →
      (findAllL (isCustomerWithId cid) l').length ≤
        (findAllL (isCustomerWithId cid) l).length
  | .nil, l' => by
    intro h
    obtain rfl : XList.nil = l' := by simpa [updUsersL] using h
    exact le_refl _
  | .cons (.mk t a x ch) cs, l' => by
    intro h
    unfold updUsersL at h
    by_cases ht : (t == "user") = true
    · rw [if_pos ht] at h
      cases hu : updateUser cid0 nid today (.mk t a x ch) with
      | error e => rw [hu] at h; simp at h
      | ok u' =>
        rw [hu] at h
        cases hcs : updUsersL cid0 nid today cs with
        | error e => rw [hcs] at h; simp at h
        | ok cs' =>
          rw [hcs] at h
          obtain rfl : XList.cons u' cs' = l' := by simpa using h
          have h1 := updateUser_count_le cid0 nid today cid _ _ hu
          have h2 := updUsers_count_le cid0 nid today cid cs cs' hcs
          simp only [findAllL, List.length_append]
          omega
    · rw [if_neg ht] at h
      cases hch : updUsersL cid0 nid today ch with
      | error e => rw [hch] at h; simp at h
      | ok ch' =>
        rw [hch] at h
        cases hcs : updUsersL cid0 nid today cs with
        | error e => rw [hcs] at h; simp at h
        | ok cs' =>
          rw [hcs] at h
          obtain rfl : XList.cons (.mk t a x ch') cs' = l' := by simpa using h
          have h1 := updUsers_count_le cid0 nid today cid ch ch' hch
          have h2 := updUsers_count_le cid0 nid today cid cs cs' hcs
          simp only [findAllL, List.length_append, findAllE, isCWI_mk]
          split <;> simp <;> omega

theorem attrPassTop_count (n1 n2 n3 mr dd : Cell) (cid : String) (e : XElem) :
    (findAllE (isCustomerWithId cid) (attrPassTop n1 n2 n3 mr dd e).1).length =
      (findAllE (isCustomerWithId cid) e).length := by
  cases e with
  | mk t a x ch =>
    rcases h2 : attrPassL n1 n2 n3 mr dd ch with ⟨ch', m2, d2⟩
    have hE : (attrPassTop n1 n2 n3 mr dd (.mk t a x ch)).1 = .mk t a x ch' := by
      simp only [attrPassTop]
      rw [h2]
    rw [hE]
    have hl := attrPass_countL n1 n2 n3 mr dd cid ch
    rw [h2] at hl
    simp only [findAllE, isCWI_mk, List.length_append]
    rw [hl]
    split <;> simp

theorem transform_count (cid : String) {newId nStoreId nStoreName nSourceId mref dday : Cell}
    {cid0 today : String} {c tc : XElem}
    (h : transformCustomer newId nStoreId nStoreName nSourceId mref dday cid0 today c = .ok tc) :
    (findAllE (isCustomerWithId cid) tc).length ≤
      (findAllE (isCustomerWithId cid) (c.setAttr "id" newId.toStr)).length := by
  simp only [transformCustomer] at h
  cases hc4 : insertMandatory mref
      (attrPassTop nStoreId nStoreName nSourceId mref dday (c.setAttr "id" newId.toStr)).2.1
      (insertDeliveryday dday
        (attrPassTop nStoreId nStoreName nSourceId mref dday (c.setAttr "id" newId.toStr)).2.2
        (attrPassTop nStoreId nStoreName nSourceId mref dday (c.setAttr "id" newId.toStr)).1) with
  | mk t a x ch =>
    rw [hc4] at h
    simp only [bind, Except.bind] at h
    cases hu : updUsersL cid0 newId.toStr today ch with
    | error e => rw [hu] at h; simp at h
    | ok ch' =>
      rw [hu] at h
      simp only [pure, Except.pure, Except.ok.injEq] at h
      subst h
      have hle := updUsers_count_le cid0 newId.toStr today cid ch ch' hu
      have h1 : (findAllE (isCustomerWithId cid) (XElem.mk t a x ch')).length ≤
          (findAllE (isCustomerWithId cid) (XElem.mk t a x ch)).length := by
        simp only [findAllE, isCWI_mk, List.length_append]
        split <;> simp <;> omega
      have h2 : (findAllE (isCustomerWithId cid) (XElem.mk t a x ch)).length =
          (findAllE (isCustomerWithId cid) (c.setAttr "id" newId.toStr)).length := by
        rw [← hc4, insertMand_count, insertDday_count, attrPassTop_count]
      omega

theorem countE_decomp (P : XElem → Bool) (e : XElem) :
    (findAllE P e).length =
      (if P e = true then 1 else 0) + (findAllL P e.children).length := by
  cases e with
  | mk t a x ch =>
    simp only [findAllE, XElem.children, List.length_append]
    split <;> simp

theorem isCWI_setChildren (cid : String) (e : XElem) (ch : XList) :
    isCustomerWithId cid (e.setChildren ch) = isCustomerWithId cid e := by
  cases e with
  | mk t a x ch0 => simp only [XElem.setChildren]; rw [isCWI_mk, isCWI_mk]

/-- C10 (amended): processing a row whose single matching record gets a new id
different from the current id removes that id from the source tree, so any
further row with the same current id is logged "Not found in source XML" and
appends nothing to the output. -/
theorem c10_theorem (csv : List Row) (today : String) (st : MState) (r1 : Row)
    (c : XElem) (row2 : Row) (tc : XElem)
    (hfind : st.root.find (isCustomerWithId r1.current_customer_id.toStr) = some c)
    (hcount : (findAllE (isCustomerWithId r1.current_customer_id.toStr) st.root).length = 1)
    (hrow : csv.find? (fun x => x.current_customer_id.toStr ==
        pyStrip ((c.getAttr "id").getD "None")) = some row2)
    (htr : transformCustomer row2.new_customer_id row2.new_store_id row2.new_store_name
        row2.new_source_id row2.mandatory_reference (rowChecks st.errorReason row2).2.2
        (pyStrip ((c.getAttr "id").getD "None")) today c = .ok tc)
    (hnew : row2.new_customer_id.toStr ≠ r1.current_customer_id.toStr) :
    ∃ st', processRow csv today st r1 = .ok st' ∧
      (findAllE (isCustomerWithId r1.current_customer_id.toStr) st'.root).length = 0 ∧
      ∀ r2 : Row, r2.current_customer_id.toStr = r1.current_customer_id.toStr →
        processRow csv today st' r2 = .ok { st' with log := st'.log ++
          [⟨r2.current_customer_id.toStr, pyStrip r2.new_customer_id.toStr, "Not OK",
            "Not found in source XML"⟩] } := by
  have hex : ∃ st', processRow csv today st r1 = .ok st' ∧
      st'.root = (st.root.updFirst (isCustomerWithId r1.current_customer_id.toStr)
        (fun _ => tc)).getD st.root := by
    cases hef : (rowChecks st.errorReason row2).1 with
    | false =>
      exact ⟨_, by simp only [processRow, hfind, hrow, htr, hef, applyStatus]; rfl, rfl⟩
    | true =>
      obtain ⟨s, hs⟩ := rowChecks_reason_of_flag st.errorReason row2 hef
      exact ⟨_, by simp only [processRow, hfind, hrow, htr, hef, hs, applyStatus]; rfl, rfl⟩
  obtain ⟨st', hpr, hroot⟩ := hex
  have hpcc : isCustomerWithId r1.current_customer_id.toStr c = true := find_pred hfind
  have hfind' : (findAllL (isCustomerWithId r1.current_customer_id.toStr)
      st.root.children).head? = some c := hfind
  have hzero : (findAllE (isCustomerWithId r1.current_customer_id.toStr) st'.root).length = 0 := by
    cases hu : updFirstL (isCustomerWithId r1.current_customer_id.toStr)
        (fun _ => tc) st.root.children with
    | none => rw [updFirstL_none _ _ _ hu] at hfind'; simp at hfind'
    | some l' =>
      have hroot' : st'.root = st.root.setChildren l' := by
        rw [hroot]
        unfold XElem.updFirst
        rw [hu]
        simp
      obtain ⟨m, hm1, hm2⟩ := updFirst_count_relL _ _ (fun _ => tc)
        (isCWI_hPc r1.current_customer_id.toStr) _ _ hu
      rw [hfind'] at hm1
      obtain rfl : c = m := by simpa using hm1
      have hcle := transform_count r1.current_customer_id.toStr htr
      have hsetc : (findAllE (isCustomerWithId r1.current_customer_id.toStr)
          (c.setAttr "id" row2.new_customer_id.toStr)).length =
          (findAllL (isCustomerWithId r1.current_customer_id.toStr) c.children).length := by
        cases c with
        | mk t a x ch =>
          simp only [XElem.setAttr, findAllE, isCWI_mk, List.length_append, XElem.children]
          simp only [lookup_set_same "id" row2.new_customer_id.toStr a]
          have hne : (some row2.new_customer_id.toStr ==
              some r1.current_customer_id.toStr) = false := by
            simp [hnew]
          simp [hne]
      have hc1 : (findAllE (isCustomerWithId r1.current_customer_id.toStr) c).length =
          1 + (findAllL (isCustomerWithId r1.current_customer_id.toStr) c.children).length := by
        rw [countE_decomp, if_pos hpcc]
      have hge1 : 1 ≤ (findAllL (isCustomerWithId r1.current_customer_id.toStr)
          st.root.children).length := by
        have hmem : c ∈ findAllL (isCustomerWithId r1.current_customer_id.toStr)
            st.root.children := List.mem_of_mem_head? hfind'
        exact List.length_pos.mpr (List.ne_nil_of_mem hmem)
      have hdec := countE_decomp (isCustomerWithId r1.current_customer_id.toStr) st.root
      rw [hcount] at hdec
      have hcl1 : (findAllL (isCustomerWithId r1.current_customer_id.toStr)
          st.root.children).length = 1 := by
        by_cases hP0 : isCustomerWithId r1.current_customer_id.toStr st.root = true
        · rw [if_pos hP0] at hdec; omega
        · rw [if_neg hP0] at hdec; omega
      have hl0 : (findAllL (isCustomerWithId r1.current_customer_id.toStr) l').length = 0 := by
        omega
      rw [hroot', countE_decomp, isCWI_setChildren, setChildren_children, hl0]
      by_cases hP0 : isCustomerWithId r1.current_customer_id.toStr st.root = true
      · rw [if_pos hP0]
        rw [if_pos hP0] at hdec
        omega
      · rw [if_neg hP0]
  refine ⟨st', hpr, hzero, ?_⟩
  intro r2 hr2
  have hfn : st'.root.find (isCustomerWithId r2.current_customer_id.toStr) = Option.none := by
    rw [hr2]
    unfold XElem.find XElem.findall
    have : (findAllL (isCustomerWithId r1.current_customer_id.toStr) st'.root.children).length
        = 0 := by
      have hdec := countE_decomp (isCustomerWithId r1.current_customer_id.toStr) st'.root
      rw [hzero] at hdec
      omega
    rw [List.eq_nil_of_length_eq_zero this]
    rfl
  simp only [processRow, hfn]

theorem c10_witness :
    ∃ st', processRow [fixRowValid] "T" fixState fixRowValid = .ok st' ∧
      (findAllE (isCustomerWithId fixRowValid.current_customer_id.toStr) st'.root).length = 0 ∧
      ∀ r2 : Row, r2.current_customer_id.toStr = fixRowValid.current_customer_id.toStr →
        processRow [fixRowValid] "T" st' r2 = .ok { st' with log := st'.log ++
          [⟨r2.current_customer_id.toStr, pyStrip r2.new_customer_id.toStr, "Not OK",
            "Not found in source XML"⟩] } :=
  c10_theorem [fixRowValid] "T" fixState fixRowValid fixCustomer fixRowValid fixTcValid
    (by decide) (by decide) (by decide) (by decide) (by decide)
